import Mathlib

/-!
# Board support package of Mecrisp-Cube (`Forth/Src/bsp.c`)

A shallow embedding of the board support package: LEDs, switches, the
digital port D0 .. D15, the analog pins A0 .. A5, the two mutexes and the
semaphore that bridge the converter interrupt to the calling thread.

Every `BSP_*` function of `bsp.c` is a state transformer over `Sys`, the
state of the peripherals and of the RTOS objects.  A call either returns a
value together with the next state, or it does not return: the thread stays
blocked, the platform halted, or the C behaviour is undefined.
-/

namespace Bsp

/-! ## Constants supplied by `main.h` and the driver headers -/

/-- The pin and channel constants that `bsp.c` takes from `main.h` and from the
driver headers.  They are not part of `bsp.c`; every function below is
parametric in them.  Ports are numbered, pins are 16 bit masks. -/
structure Board where
  LL_UTILS_PACKAGETYPE_QFN48 : Nat
  LD1_DONGLE_GPIO_Port : Nat
  LD1_DONGLE_Pin : Nat
  LD1_GPIO_Port : Nat
  LD1_Pin : Nat
  LD2_GPIO_Port : Nat
  LD2_Pin : Nat
  LD3_GPIO_Port : Nat
  LD3_Pin : Nat
  B1_DONGLE_GPIO_Port : Nat
  B1_DONGLE_Pin : Nat
  B1_GPIO_Port : Nat
  B1_Pin : Nat
  B2_GPIO_Port : Nat
  B2_Pin : Nat
  B3_GPIO_Port : Nat
  B3_Pin : Nat
  /-- `Dn_GPIO_Port`, indexed by `n`. -/
  D_GPIO_Port : Nat → Nat
  /-- `Dn_Pin`, indexed by `n`. -/
  D_Pin : Nat → Nat
  /-- `ADC_CHANNEL_n`, indexed by `n`. -/
  ADC_CHANNEL : Nat → Nat
  GPIO_MODE_INPUT : Nat
  GPIO_MODE_OUTPUT_PP : Nat
  GPIO_MODE_OUTPUT_OD : Nat
  GPIO_MODE_AF_PP : Nat
  GPIO_NOPULL : Nat
  GPIO_PULLUP : Nat
  GPIO_PULLDOWN : Nat

/-! ## State of the peripherals and of the RTOS objects -/

/-- The two mutexes of `bsp.c`. -/
inductive MutexId where
  | DigitalPort_MutexID
  | Adc_MutexID
  deriving DecidableEq, Repr

/-- An interrupt request of the converter. -/
inductive AdcIrq where
  /-- End of conversion: the data register holds `sample`. -/
  | convCplt (sample : Nat)
  /-- The converter reports an error. -/
  | error
  deriving DecidableEq, Repr

/-- What a function does to the outside, in the order it does it. -/
inductive Event where
  | mutexAcquire (m : MutexId)
  | mutexRelease (m : MutexId)
  | getPackageType
  | gpioWrite (port pin : Nat) (set : Bool)
  | gpioRead (port pin : Nat)
  | gpioInit (port pin mode pull : Nat)
  | adcConfigChannel (channel : Nat)
  | adcStart_IT
  | adcGetValue
  | adcStop_IT
  | semaphoreAcquire
  | semaphoreRelease
  | errorHandler
  deriving DecidableEq, Repr

/-- Why a call does not return. -/
inductive Fault where
  /-- The thread waits forever on a mutex or on the semaphore. -/
  | blocked
  /-- `Error_Handler` does not return. -/
  | halted
  /-- An array is indexed outside its bounds. -/
  | undefined
  deriving DecidableEq, Repr

/-- Modelled from the spec: `HAL_StatusTypeDef` (driver header, absent), the
status with which a driver call answers; only `HAL_OK` is a success. -/
inductive HAL_StatusTypeDef where
  | HAL_OK
  | HAL_ERROR
  | HAL_BUSY
  | HAL_TIMEOUT
  deriving DecidableEq, Repr

/-- State of the peripherals and of the RTOS objects. -/
structure Sys where
  /-- Package type of the chip, as `LL_GetPackageType` reads it. -/
  packageType : Nat
  /-- Output data register bit `k` of port `p`. -/
  odr : Nat → Nat → Bool
  /-- Pin `k` of port `p` is a push-pull output: the line follows `odr`. -/
  driven : Nat → Nat → Bool
  /-- Level that the outside applies to pin `k` of port `p` while the pin is not driven. -/
  line : Nat → Nat → Bool
  /-- The mutex `DigitalPort_MutexID` is held. -/
  digitalPortHeld : Bool
  /-- The mutex `Adc_MutexID` is held. -/
  adcHeld : Bool
  /-- Count of the semaphore `Adc_SemaphoreID`. -/
  adcSemaphore : Nat
  /-- The field `sConfig.Channel`. -/
  sConfig_Channel : Nat
  /-- Channel selected in the converter. -/
  adcChannel : Nat
  /-- Status with which `HAL_ADC_ConfigChannel` answers. -/
  adcConfigStatus : HAL_StatusTypeDef
  /-- Status with which `HAL_ADC_Start_IT` answers. -/
  adcStartStatus : HAL_StatusTypeDef
  /-- A conversion with interrupts is running. -/
  adcRunning : Bool
  /-- Data register of the converter. -/
  adcDR : Nat
  /-- Interrupt requests the converter raises while a conversion runs, in order. -/
  adcIrq : List AdcIrq
  /-- `Error_Handler` returns to its caller. -/
  errorHandlerReturns : Bool
  /-- Everything done so far, oldest first. -/
  log : List Event

/-- A function of the board support package. -/
abbrev BSP (α : Type) := Sys → Except Fault (α × Sys)

/-- Sequencing of two steps. -/
def BSP.andThen {α β : Type} (x : BSP α) (f : α → BSP β) : BSP β := fun s =>
  match x s with
  | .error e => .error e
  | .ok (a, s1) => f a s1

instance : Monad BSP where
  pure a := fun s => .ok (a, s)
  bind := BSP.andThen

/-- Level of pin `k` of port `p` as the input data register shows it. -/
def Sys.idr (s : Sys) (p k : Nat) : Bool :=
  if s.driven p k then s.odr p k else s.line p k

/-- Whether a pin of the mask `pin` on port `p` is electrically high. -/
def Sys.high (s : Sys) (p pin : Nat) : Bool :=
  (List.range 16).any (fun k => pin.testBit k && s.idr p k)

/-- Whether mutex `m` is held. -/
def Sys.held (s : Sys) : MutexId → Bool
  | .DigitalPort_MutexID => s.digitalPortHeld
  | .Adc_MutexID => s.adcHeld

/-- Sets whether mutex `m` is held. -/
def Sys.setHeld (s : Sys) : MutexId → Bool → Sys
  | .DigitalPort_MutexID, v => { s with digitalPortHeld := v }
  | .Adc_MutexID, v => { s with adcHeld := v }

/-! ## RTOS and driver primitives

`bsp.c` calls these; their code is not part of it. -/

/-- Modelled from the spec: `osMutexAcquire` with `osWaitForever` (RTOS, absent).
A mutual-exclusion lock without timeout: a free mutex is taken, a held one
blocks the caller. -/
def osMutexAcquire (m : MutexId) : BSP Unit := fun s =>
  if s.held m then .error .blocked
  else .ok ((), { s.setHeld m true with log := s.log ++ [.mutexAcquire m] })

/-- Modelled from the spec: `osMutexRelease` (RTOS, absent).  The mutex is free
afterwards. -/
def osMutexRelease (m : MutexId) : BSP Unit := fun s =>
  .ok ((), { s.setHeld m false with log := s.log ++ [.mutexRelease m] })

/-- Modelled from the spec: `osSemaphoreRelease` (RTOS, absent).  Raises the
completion signal, whose maximum count is 1. -/
def osSemaphoreRelease : BSP Unit := fun s =>
  .ok ((), { s with adcSemaphore := min (s.adcSemaphore + 1) 1,
                    log := s.log ++ [.semaphoreRelease] })

/-- Modelled from the spec: `LL_GetPackageType` (driver, absent).  The board
variant, queried fresh on each call. -/
def LL_GetPackageType : BSP Nat := fun s =>
  .ok (s.packageType, { s with log := s.log ++ [.getPackageType] })

/-- Modelled from the spec: `GPIO_PIN_RESET` of `GPIO_PinState` (driver header,
absent), the bit 0 of a pin that is electrically low. -/
def GPIO_PIN_RESET : Int := 0

/-- Modelled from the spec: `GPIO_PIN_SET` of `GPIO_PinState` (driver header,
absent), the bit 1 of a pin that is electrically high. -/
def GPIO_PIN_SET : Int := 1

/-- Modelled from the spec: `FALSE` (`app_common.h`, absent): false is zero. -/
def FALSE : Int := 0

/-- Modelled from the spec: `HAL_GPIO_WritePin` (driver, absent), the "write pin"
capability.  Every pin of the mask `pin` on `port` gets its output bit set
when `PinState` is not `GPIO_PIN_RESET`, and reset otherwise. -/
def HAL_GPIO_WritePin (port pin : Nat) (PinState : Int) : BSP Unit := fun s =>
  .ok ((), { s with
    odr := fun p k =>
      if p = port ∧ k < 16 ∧ pin.testBit k = true then decide (PinState ≠ GPIO_PIN_RESET)
      else s.odr p k,
    log := s.log ++ [.gpioWrite port pin (decide (PinState ≠ GPIO_PIN_RESET))] })

/-- Modelled from the spec: `HAL_GPIO_ReadPin` (driver, absent), the "read pin"
capability.  `GPIO_PIN_SET` when a pin of the mask `pin` on `port` is
electrically high, `GPIO_PIN_RESET` otherwise. -/
def HAL_GPIO_ReadPin (port pin : Nat) : BSP Int := fun s =>
  .ok (if s.high port pin then GPIO_PIN_SET else GPIO_PIN_RESET,
       { s with log := s.log ++ [.gpioRead port pin] })

/-- Modelled from the spec: `HAL_GPIO_Init` (driver, absent).  Applies a mode
preset to every pin of the mask; the pin drives its line when the mode is
push-pull output. -/
def HAL_GPIO_Init (b : Board) (port pin mode pull : Nat) : BSP Unit := fun s =>
  .ok ((), { s with
    driven := fun p k =>
      if p = port ∧ k < 16 ∧ pin.testBit k = true then decide (mode = b.GPIO_MODE_OUTPUT_PP)
      else s.driven p k,
    log := s.log ++ [.gpioInit port pin mode pull] })

/-- Modelled from the spec: `Error_Handler` (`main.c`, absent), the fatal-error
handler.  The spec calls it process-halting and yet lets the error callback go
on after it; `errorHandlerReturns` covers both: the handler either returns to
its caller or halts for good. -/
def Error_Handler : BSP Unit := fun s =>
  if s.errorHandlerReturns then .ok ((), { s with log := s.log ++ [.errorHandler] })
  else .error .halted

/-- Modelled from the spec: `HAL_ADC_ConfigChannel` (driver, absent), the
"configure channel" capability: selects `sConfig.Channel` in the converter. -/
def HAL_ADC_ConfigChannel : BSP HAL_StatusTypeDef := fun s =>
  .ok (s.adcConfigStatus,
       { s with
         adcChannel := if s.adcConfigStatus = .HAL_OK then s.sConfig_Channel else s.adcChannel,
         log := s.log ++ [.adcConfigChannel s.sConfig_Channel] })

/-- Modelled from the spec: `HAL_ADC_Start_IT` (driver, absent), the "start
conversion" capability. -/
def HAL_ADC_Start_IT : BSP HAL_StatusTypeDef := fun s =>
  .ok (s.adcStartStatus,
       { s with
         adcRunning := decide (s.adcStartStatus = .HAL_OK),
         log := s.log ++ [.adcStart_IT] })

/-- Modelled from the spec: `HAL_ADC_GetValue` (driver, absent).  The conversion
result register, a 12-bit unsigned magnitude. -/
def HAL_ADC_GetValue : BSP Nat := fun s =>
  .ok (s.adcDR % 4096, { s with log := s.log ++ [.adcGetValue] })

/-- Modelled from the spec: `HAL_ADC_Stop_IT` (driver, absent).  Stops the
interrupt-driven conversion. -/
def HAL_ADC_Stop_IT : BSP Unit := fun s =>
  .ok ((), { s with adcRunning := false, log := s.log ++ [.adcStop_IT] })

/-! ## Callbacks (`bsp.c`, lines 641 to 667) -/

/-- Conversion complete callback. -/
def HAL_ADC_ConvCpltCallback : BSP Unit := do
  osSemaphoreRelease

/-- Error callback of the converter. -/
def HAL_ADC_ErrorCallback : BSP Unit := do
  Error_Handler
  osSemaphoreRelease

/-- Modelled from the spec: `HAL_ADC_IRQHandler` (driver, absent).  Serves one
interrupt request: an end of conversion latches the sample and calls the
completion callback, an error calls the error callback. -/
def HAL_ADC_IRQHandler : AdcIrq → BSP Unit
  | .convCplt sample => fun s => HAL_ADC_ConvCpltCallback { s with adcDR := sample }
  | .error => HAL_ADC_ErrorCallback

/-- Modelled from the spec: the wait inside `osSemaphoreAcquire` (RTOS, absent).
The thread goes on as soon as the count is positive; while it is suspended
the pending interrupt requests of a running conversion are served, one after
the other; with no request left it stays blocked. -/
def osSemaphoreAcquire.wait : List AdcIrq → Sys → Except Fault (Unit × Sys)
  | [], s =>
    if 0 < s.adcSemaphore then
      .ok ((), { s with adcSemaphore := s.adcSemaphore - 1,
                        log := s.log ++ [.semaphoreAcquire] })
    else .error .blocked
  | q :: rest, s =>
    if 0 < s.adcSemaphore then
      .ok ((), { s with adcSemaphore := s.adcSemaphore - 1,
                        log := s.log ++ [.semaphoreAcquire] })
    else if s.adcRunning then
      match HAL_ADC_IRQHandler q { s with adcIrq := rest } with
      | .error e => .error e
      | .ok (_, s1) => osSemaphoreAcquire.wait rest s1
    else .error .blocked

/-- Modelled from the spec: `osSemaphoreAcquire` with `osWaitForever` (RTOS,
absent).  Suspends the calling thread on the completion signal, without
timeout. -/
def osSemaphoreAcquire : BSP Unit := fun s => osSemaphoreAcquire.wait s.adcIrq s

/-! ## LEDs and switches (`bsp.c`, lines 152 to 397) -/

/-- Sets the LED1 (blue). -/
def BSP_setLED1 (b : Board) (state : Int) : BSP Unit := do
  osMutexAcquire .DigitalPort_MutexID
  if (← LL_GetPackageType) = b.LL_UTILS_PACKAGETYPE_QFN48 then
    if state ≠ 0 then
      HAL_GPIO_WritePin b.LD1_DONGLE_GPIO_Port b.LD1_DONGLE_Pin GPIO_PIN_SET
    else
      HAL_GPIO_WritePin b.LD1_DONGLE_GPIO_Port b.LD1_DONGLE_Pin GPIO_PIN_RESET
  else
    if state ≠ 0 then
      HAL_GPIO_WritePin b.LD1_GPIO_Port b.LD1_Pin GPIO_PIN_SET
    else
      HAL_GPIO_WritePin b.LD1_GPIO_Port b.LD1_Pin GPIO_PIN_RESET
  osMutexRelease .DigitalPort_MutexID

/-- Gets the LED1 (blue) state. -/
def BSP_getLED1 (b : Board) : BSP Int := do
  osMutexAcquire .DigitalPort_MutexID
  let return_value ←
    if (← LL_GetPackageType) = b.LL_UTILS_PACKAGETYPE_QFN48 then
      if (← HAL_GPIO_ReadPin b.LD1_DONGLE_GPIO_Port b.LD1_DONGLE_Pin) = GPIO_PIN_SET then
        pure (-1)
      else
        pure FALSE
    else
      if (← HAL_GPIO_ReadPin b.LD1_GPIO_Port b.LD1_Pin) = GPIO_PIN_SET then
        pure (-1)
      else
        pure FALSE
  osMutexRelease .DigitalPort_MutexID
  return return_value

/-- Sets the LED2. -/
def BSP_setLED2 (b : Board) (state : Int) : BSP Unit := do
  osMutexAcquire .DigitalPort_MutexID
  if state ≠ 0 then
    HAL_GPIO_WritePin b.LD2_GPIO_Port b.LD2_Pin GPIO_PIN_SET
  else
    HAL_GPIO_WritePin b.LD2_GPIO_Port b.LD2_Pin GPIO_PIN_RESET
  osMutexRelease .DigitalPort_MutexID

/-- Gets the LED2 state. -/
def BSP_getLED2 (b : Board) : BSP Int := do
  osMutexAcquire .DigitalPort_MutexID
  let return_value ←
    if (← HAL_GPIO_ReadPin b.LD2_GPIO_Port b.LD2_Pin) = GPIO_PIN_SET then
      pure (-1)
    else
      pure FALSE
  osMutexRelease .DigitalPort_MutexID
  return return_value

/-- Sets the LED3. -/
def BSP_setLED3 (b : Board) (state : Int) : BSP Unit := do
  osMutexAcquire .DigitalPort_MutexID
  if state ≠ 0 then
    HAL_GPIO_WritePin b.LD3_GPIO_Port b.LD3_Pin GPIO_PIN_SET
  else
    HAL_GPIO_WritePin b.LD3_GPIO_Port b.LD3_Pin GPIO_PIN_RESET
  osMutexRelease .DigitalPort_MutexID

/-- Gets the LED3 state. -/
def BSP_getLED3 (b : Board) : BSP Int := do
  osMutexAcquire .DigitalPort_MutexID
  let return_value ←
    if (← HAL_GPIO_ReadPin b.LD3_GPIO_Port b.LD3_Pin) = GPIO_PIN_SET then
      pure (-1)
    else
      pure FALSE
  osMutexRelease .DigitalPort_MutexID
  return return_value

/-- Gets the switch1 state.  No debouncing. -/
def BSP_getSwitch1 (b : Board) : BSP Int := do
  osMutexAcquire .DigitalPort_MutexID
  let return_value ←
    if (← LL_GetPackageType) = b.LL_UTILS_PACKAGETYPE_QFN48 then
      if (← HAL_GPIO_ReadPin b.B1_DONGLE_GPIO_Port b.B1_DONGLE_Pin) = GPIO_PIN_RESET then
        pure (-1)
      else
        pure FALSE
    else
      if (← HAL_GPIO_ReadPin b.B1_GPIO_Port b.B1_Pin) = GPIO_PIN_RESET then
        pure (-1)
      else
        pure FALSE
  osMutexRelease .DigitalPort_MutexID
  return return_value

/-- Gets the switch2 state.  No debouncing. -/
def BSP_getSwitch2 (b : Board) : BSP Int := do
  osMutexAcquire .DigitalPort_MutexID
  let return_value ←
    if (← LL_GetPackageType) = b.LL_UTILS_PACKAGETYPE_QFN48 then
      pure FALSE
    else
      if (← HAL_GPIO_ReadPin b.B2_GPIO_Port b.B2_Pin) = GPIO_PIN_RESET then
        pure (-1)
      else
        pure FALSE
  osMutexRelease .DigitalPort_MutexID
  return return_value

/-- Gets the switch3 state.  No debouncing. -/
def BSP_getSwitch3 (b : Board) : BSP Int := do
  osMutexAcquire .DigitalPort_MutexID
  let return_value ←
    if (← LL_GetPackageType) = b.LL_UTILS_PACKAGETYPE_QFN48 then
      pure FALSE
    else
      if (← HAL_GPIO_ReadPin b.B3_GPIO_Port b.B3_Pin) = GPIO_PIN_RESET then
        pure (-1)
      else
        pure FALSE
  osMutexRelease .DigitalPort_MutexID
  return return_value

/-! ## Digital port pins D0 to D15 (`bsp.c`, lines 400 to 515) -/

/-- A port and a pin mask. -/
structure PortPin_t where
  port : Nat
  pin : Nat
  deriving DecidableEq, Repr

/-- The table of the digital port pins, row by row as in `bsp.c`. -/
def PortPin_a (b : Board) : List PortPin_t := [
    ⟨b.D_GPIO_Port 0, b.D_Pin 0⟩,
    ⟨b.D_GPIO_Port 1, b.D_Pin 1⟩,
    ⟨b.D_GPIO_Port 2, b.D_Pin 2⟩,
    ⟨b.D_GPIO_Port 3, b.D_Pin 3⟩,
    ⟨b.D_GPIO_Port 4, b.D_Pin 4⟩,
    ⟨b.D_GPIO_Port 5, b.D_Pin 5⟩,
    ⟨b.D_GPIO_Port 6, b.D_Pin 6⟩,
    ⟨b.D_GPIO_Port 7, b.D_Pin 7⟩,
    ⟨b.D_GPIO_Port 8, b.D_Pin 9⟩,
    ⟨b.D_GPIO_Port 9, b.D_Pin 9⟩,
    ⟨b.D_GPIO_Port 10, b.D_Pin 10⟩,
    ⟨b.D_GPIO_Port 11, b.D_Pin 11⟩,
    ⟨b.D_GPIO_Port 12, b.D_Pin 12⟩,
    ⟨b.D_GPIO_Port 13, b.D_Pin 13⟩,
    ⟨b.D_GPIO_Port 14, b.D_Pin 14⟩,
    ⟨b.D_GPIO_Port 15, b.D_Pin 15⟩
  ]

/-- Array access `a[i]` with an `int` index; outside the bounds the behaviour is
undefined. -/
def index {α : Type} (a : List α) (i : Int) : BSP α := fun s =>
  if 0 ≤ i then
    match a[i.toNat]? with
    | some x => .ok (x, s)
    | none => .error .undefined
  else .error .undefined

/-- The loop `for (i=0; i<16; i++)` of `BSP_setDigitalPort`; `n` counts the
rounds that are left.  `state & 0x01` and the arithmetic shift `state >> 1`
are taken on the integers, where they agree with the 32 bit `int`. -/
def BSP_setDigitalPort.loop (b : Board) : Nat → Nat → Int → BSP Unit
  | 0, _, _ => pure ()
  | n + 1, i, state => do
    let e ← index (PortPin_a b) i
    HAL_GPIO_WritePin e.port e.pin (Int.land state 0x01)
    BSP_setDigitalPort.loop b n (i + 1) (state >>> 1)

/-- Sets the digital output port pins (D0 .. D15). -/
def BSP_setDigitalPort (b : Board) (state : Int) : BSP Unit := do
  osMutexAcquire .DigitalPort_MutexID
  BSP_setDigitalPort.loop b 16 0 state
  osMutexRelease .DigitalPort_MutexID

/-- The loop `for (i=15; i>-1; i--)` of `BSP_getDigitalPort`; the first argument
is `i + 1`.  The shift `return_value << 1` is the multiplication by 2: after
at most sixteen rounds from 0 the value is below 2^16, far from the range of
`int`. -/
def BSP_getDigitalPort.loop (b : Board) : Nat → Int → BSP Int
  | 0, return_value => pure return_value
  | i + 1, return_value => do
    let return_value := return_value * 2
    let e ← index (PortPin_a b) i
    let return_value := Int.lor return_value (← HAL_GPIO_ReadPin e.port e.pin)
    BSP_getDigitalPort.loop b i return_value

/-- Gets the digital output port pins (D0 .. D15). -/
def BSP_getDigitalPort (b : Board) : BSP Int := do
  osMutexAcquire .DigitalPort_MutexID
  let return_value ← BSP_getDigitalPort.loop b 16 0
  osMutexRelease .DigitalPort_MutexID
  return return_value

/-- Sets the digital output port pin (D0 .. D15). -/
def BSP_setDigitalPin (b : Board) (pin_number : Int) (state : Int) : BSP Unit := do
  osMutexAcquire .DigitalPort_MutexID
  let e ← index (PortPin_a b) pin_number
  HAL_GPIO_WritePin e.port e.pin state
  osMutexRelease .DigitalPort_MutexID

/-- Gets the digital input port pin (D0 .. D15). -/
def BSP_getDigitalPin (b : Board) (pin_number : Int) : BSP Int := do
  osMutexAcquire .DigitalPort_MutexID
  let e ← index (PortPin_a b) pin_number
  let return_value ← HAL_GPIO_ReadPin e.port e.pin
  osMutexRelease .DigitalPort_MutexID
  return return_value

/-! ## Analog port pins A0 to A5 (`bsp.c`, lines 520 to 561) -/

/-- The table of the analog port pins. -/
def AnalogPortPin_a (b : Board) : List Nat := [
    b.ADC_CHANNEL 1,
    b.ADC_CHANNEL 2,
    b.ADC_CHANNEL 6,
    b.ADC_CHANNEL 5,
    b.ADC_CHANNEL 4,
    b.ADC_CHANNEL 3
  ]

/-- The assignment to `sConfig.Channel`. -/
def assign_sConfig_Channel (channel : Nat) : BSP Unit := fun s =>
  .ok ((), { s with sConfig_Channel := channel })

/-- Gets the analog input port pin (A0 .. A5) ADC value. -/
def BSP_getAnalogPin (b : Board) (pin_number : Int) : BSP Int := do
  osMutexAcquire .Adc_MutexID
  let channel ← index (AnalogPortPin_a b) pin_number
  assign_sConfig_Channel channel
  if (← HAL_ADC_ConfigChannel) ≠ .HAL_OK then
    Error_Handler
  let status ← HAL_ADC_Start_IT
  if status ≠ .HAL_OK then
    Error_Handler
  osSemaphoreAcquire
  let return_value ← HAL_ADC_GetValue
  HAL_ADC_Stop_IT
  osMutexRelease .Adc_MutexID
  return (return_value : Int)

/-! ## Digital port pin mode (`bsp.c`, lines 566 to 627) -/

/-- A mode and a pull setting. -/
structure PortPinMode_t where
  mode : Nat
  pull : Nat
  deriving DecidableEq, Repr

/-- The table of the pin mode presets. -/
def DigitalPortPinMode_a (b : Board) : List PortPinMode_t := [
    ⟨b.GPIO_MODE_INPUT, b.GPIO_NOPULL⟩,
    ⟨b.GPIO_MODE_INPUT, b.GPIO_PULLUP⟩,
    ⟨b.GPIO_MODE_INPUT, b.GPIO_PULLDOWN⟩,
    ⟨b.GPIO_MODE_OUTPUT_PP, b.GPIO_NOPULL⟩,
    ⟨b.GPIO_MODE_OUTPUT_OD, b.GPIO_NOPULL⟩,
    ⟨b.GPIO_MODE_AF_PP, b.GPIO_NOPULL⟩
  ]

/-- Sets the digital port pin mode (D0 .. D15). -/
def BSP_setDigitalPinMode (b : Board) (pin_number : Int) (mode : Int) : BSP Unit := do
  osMutexAcquire .DigitalPort_MutexID
  let GPIO_InitStruct_Pin := (← index (PortPin_a b) pin_number).pin
  let GPIO_InitStruct_Mode := (← index (DigitalPortPinMode_a b) mode).mode
  let GPIO_InitStruct_Pull := (← index (DigitalPortPinMode_a b) mode).pull
  HAL_GPIO_Init b (← index (PortPin_a b) pin_number).port
    GPIO_InitStruct_Pin GPIO_InitStruct_Mode GPIO_InitStruct_Pull
  osMutexRelease .DigitalPort_MutexID

/-- Sets the digital output port pin to a PWM value; the body is empty. -/
def BSP_setPwmPin (_b : Board) (_pin_number : Int) (_value : Int) : BSP Unit := do
  osMutexAcquire .DigitalPort_MutexID
  osMutexRelease .DigitalPort_MutexID

/-! ## Observations and sample inputs used in the statements -/

/-- The value a call returns, if it returns. -/
def retval {α : Type} : Except Fault (α × Sys) → Option α
  | .ok (a, _) => some a
  | .error _ => none

/-- The mask `e.pin` names a pin of port `e.port`, and every pin it names is a
driven output in `s`. -/
def Sys.isOutput (s : Sys) (e : PortPin_t) : Prop :=
  (∃ k, k < 16 ∧ e.pin.testBit k = true) ∧
  ∀ k, k < 16 → e.pin.testBit k = true → s.driven e.port k = true

instance (s : Sys) (e : PortPin_t) : Decidable (s.isOutput e) := by
  unfold Sys.isOutput; infer_instance

/-- The events of one call: the mutex `m` is acquired first, released last, and
neither acquired nor released in between. -/
def bracketed (m : MutexId) : List Event → Bool
  | [] => false
  | e :: rest =>
    e == .mutexAcquire m && rest.getLast? == some (.mutexRelease m) &&
      rest.dropLast.all (fun x => x != .mutexAcquire m && x != .mutexRelease m)

/-- A call of `op` from a state in which the mutex `m` is free returns, leaves
`m` free, and its events are bracketed by `m`. -/
def LockedCall {α : Type} (m : MutexId) (op : BSP α) : Prop :=
  ∀ s : Sys, s.held m = false →
    ∃ r s1 tr, op s = .ok (r, s1) ∧ s1.held m = false ∧
      s1.log = s.log ++ tr ∧ bracketed m tr = true

/-- The pins of the entries `i` and `j` of the table do not overlap. -/
def Board.disjointRows (b : Board) (i j : Nat) : Prop :=
  match (PortPin_a b)[i]?, (PortPin_a b)[j]? with
  | some ei, some ej =>
    ei.port ≠ ej.port ∨ ∀ k, k < 16 → ¬(ei.pin.testBit k = true ∧ ej.pin.testBit k = true)
  | _, _ => True

instance (b : Board) (i j : Nat) : Decidable (b.disjointRows i j) := by
  unfold Board.disjointRows; split <;> infer_instance

/-- A sample assignment of the constants, after the pin-out of the
P-NUCLEO-WB55 board, ports numbered A = 0, B = 1, C = 2, D = 3 (D8 is PC12,
D9 is PA9). -/
def sampleBoard : Board where
  LL_UTILS_PACKAGETYPE_QFN48 := 0x0A
  LD1_DONGLE_GPIO_Port := 0
  LD1_DONGLE_Pin := 0x0010
  LD1_GPIO_Port := 1
  LD1_Pin := 0x0020
  LD2_GPIO_Port := 1
  LD2_Pin := 0x0001
  LD3_GPIO_Port := 1
  LD3_Pin := 0x0002
  B1_DONGLE_GPIO_Port := 0
  B1_DONGLE_Pin := 0x0400
  B1_GPIO_Port := 2
  B1_Pin := 0x0010
  B2_GPIO_Port := 3
  B2_Pin := 0x0001
  B3_GPIO_Port := 3
  B3_Pin := 0x0002
  D_GPIO_Port := fun n => [0, 0, 2, 0, 2, 0, 0, 2, 2, 0, 0, 0, 0, 0, 1, 1].getD n 0
  D_Pin := fun n => 2 ^ [3, 2, 6, 10, 10, 15, 8, 13, 12, 9, 4, 7, 6, 5, 9, 8].getD n 0
  ADC_CHANNEL := fun n => n
  GPIO_MODE_INPUT := 0
  GPIO_MODE_OUTPUT_PP := 1
  GPIO_MODE_OUTPUT_OD := 0x11
  GPIO_MODE_AF_PP := 2
  GPIO_NOPULL := 0
  GPIO_PULLUP := 1
  GPIO_PULLDOWN := 2

/-- A second assignment: as `sampleBoard`, but the sixteen digital pins are the
sixteen pins of port A, Dn on pin n. -/
def portBoard : Board :=
  { sampleBoard with D_GPIO_Port := fun _ => 0, D_Pin := fun n => 2 ^ n }

/-- A state at rest: standard package, every pin a driven output at low level,
both mutexes free, the semaphore at 0, no conversion running. -/
def idle : Sys where
  packageType := 0x11
  odr := fun _ _ => false
  driven := fun _ _ => true
  line := fun _ _ => false
  digitalPortHeld := false
  adcHeld := false
  adcSemaphore := 0
  sConfig_Channel := 0
  adcChannel := 0
  adcConfigStatus := .HAL_OK
  adcStartStatus := .HAL_OK
  adcRunning := false
  adcDR := 0
  adcIrq := []
  errorHandlerReturns := true
  log := []

/-- As `idle`, but pin 9 of port C, which is none of D0 .. D15 on `sampleBoard`,
is an input held low from outside. -/
def idlePC9Input : Sys :=
  { idle with driven := fun p k => !(p == 2 && k == 9) }

/-- A call of `op` from `s` returns with the mutex free after one write of `v`
to the pin `e`; `probe` lists the events between the acquisition and the
write.  Nothing but the output bits of `e` changes in the port. -/
def WritesPin (op : BSP Unit) (s : Sys) (e : PortPin_t) (v : Bool) (probe : List Event) : Prop :=
  ∃ s1, op s = .ok ((), s1) ∧ s1.digitalPortHeld = false ∧ s1.packageType = s.packageType ∧
    s1.driven = s.driven ∧
    s1.odr = (fun p k => if p = e.port ∧ k < 16 ∧ e.pin.testBit k = true then v else s.odr p k) ∧
    s1.log = s.log ++ [.mutexAcquire .DigitalPort_MutexID] ++ probe ++
      [.gpioWrite e.port e.pin v, .mutexRelease .DigitalPort_MutexID]

/-- A call of `op` from `s` returns with the mutex free after one read of the pin
`e`: the value is `hi` when the line is high and `lo` when it is low. -/
def ReadsPin (op : BSP Int) (s : Sys) (e : PortPin_t) (hi lo : Int) (probe : List Event) : Prop :=
  ∃ s1, op s = .ok (if s.high e.port e.pin = true then hi else lo, s1) ∧
    s1.digitalPortHeld = false ∧
    s1.log = s.log ++ [.mutexAcquire .DigitalPort_MutexID] ++ probe ++
      [.gpioRead e.port e.pin, .mutexRelease .DigitalPort_MutexID]

/-- The call `set` from `s` and then the call `get` both return; `get` returns
`r`; `set` writes `v` to the pin `e` and to no other, `get` reads the pin `e`
and no other. -/
def SetThenGet (set : BSP Unit) (get : BSP Int) (s : Sys) (e : PortPin_t) (v : Bool) (r : Int)
    (probe : List Event) : Prop :=
  ∃ s1 s2, set s = .ok ((), s1) ∧ get s1 = .ok (r, s2) ∧
    s1.log = s.log ++ [.mutexAcquire .DigitalPort_MutexID] ++ probe ++
      [.gpioWrite e.port e.pin v, .mutexRelease .DigitalPort_MutexID] ∧
    s2.log = s1.log ++ [.mutexAcquire .DigitalPort_MutexID] ++ probe ++
      [.gpioRead e.port e.pin, .mutexRelease .DigitalPort_MutexID]

/-- The call `get` from `s` returns the Forth flag of "the line of `e` is low":
-1 when it is low, 0 when it is high, after querying the package type and
reading the pin `e` and no other. -/
def ActiveLowRead (get : BSP Int) (s : Sys) (e : PortPin_t) : Prop :=
  ∃ r s1, get s = .ok (r, s1) ∧ (r = -1 ∨ r = 0) ∧ (r = -1 ↔ s.high e.port e.pin = false) ∧
    s1.log = s.log ++ [.mutexAcquire .DigitalPort_MutexID, .getPackageType,
      .gpioRead e.port e.pin, .mutexRelease .DigitalPort_MutexID]

/-- An event that neither acquires nor releases a mutex. -/
def Event.isAccess : Event → Bool
  | .mutexAcquire _ => false
  | .mutexRelease _ => false
  | _ => true

/-- The conversion that a call starts in `s` comes to an end: the converter
accepts the channel and the start, and it raises an interrupt request; when
that request is an error, `Error_Handler` returns. -/
def Sys.conversionEnds (s : Sys) : Prop :=
  s.adcConfigStatus = .HAL_OK ∧ s.adcStartStatus = .HAL_OK ∧
    match s.adcIrq with
    | [] => False
    | q :: _ => q = .error → s.errorHandlerReturns = true

instance (s : Sys) : Decidable s.conversionEnds := by
  unfold Sys.conversionEnds; split <;> infer_instance

/-- As `idle`, with the interrupt request `q` pending in the converter. -/
def converting (q : AdcIrq) : Sys :=
  { idle with adcIrq := [q] }

/-- As `converting .error`, on a platform whose `Error_Handler` does not return. -/
def haltedConversion : Sys :=
  { converting .error with errorHandlerReturns := false }

/-! ## Running the monad -/

theorem BSP.bind_apply {α β : Type} (x : BSP α) (f : α → BSP β) (s : Sys) :
    (x >>= f) s = match x s with
      | .error e => .error e
      | .ok (a, s1) => f a s1 := rfl

theorem BSP.pure_apply {α : Type} (a : α) (s : Sys) : (pure a : BSP α) s = .ok (a, s) := rfl

/-! ## One write, one read -/

theorem Sys.high_frame (s : Sys) (p pin : Nat) (pt : Nat) (dh ah : Bool) (sem sc ch : Nat)
    (cs ss : HAL_StatusTypeDef) (run : Bool) (dr : Nat) (irq : List AdcIrq) (ehr : Bool)
    (log : List Event) :
    (Sys.mk pt s.odr s.driven s.line dh ah sem sc ch cs ss run dr irq ehr log).high p pin =
      s.high p pin := rfl

theorem Sys.high_written (s s1 : Sys) (port pin : Nat) (v : Bool)
    (hd : s1.driven = s.driven)
    (ho : s1.odr = fun p k =>
      if p = port ∧ k < 16 ∧ pin.testBit k = true then v else s.odr p k)
    (hout : s.isOutput ⟨port, pin⟩) : s1.high port pin = v := by
  obtain ⟨⟨k, hk, hb⟩, hdrv⟩ := hout
  simp only at hb hdrv
  unfold Sys.high Sys.idr
  rw [hd, ho]
  cases v with
  | true =>
    rw [List.any_eq_true]
    exact ⟨k, List.mem_range.mpr hk, by simp [hb, hdrv k hk hb, hk]⟩
  | false =>
    rw [Bool.eq_false_iff]
    intro h
    rw [List.any_eq_true] at h
    obtain ⟨j, hj, hjb⟩ := h
    have hj16 := List.mem_range.mp hj
    by_cases hbit : pin.testBit j = true
    · simp [hbit, hdrv j hj16 hbit, hj16] at hjb
    · simp [hbit] at hjb

theorem SetThenGet.of_runs (set : BSP Unit) (get : BSP Int) (s : Sys) (e : PortPin_t) (v : Bool)
    (hi lo : Int) (probe : List Event) (hout : s.isOutput e)
    (hw : WritesPin set s e v probe)
    (hr : ∀ s1 : Sys, s1.digitalPortHeld = false → s1.packageType = s.packageType →
      ReadsPin get s1 e hi lo probe) :
    SetThenGet set get s e v (if v = true then hi else lo) probe := by
  obtain ⟨s1, h1, hf1, hp1, hd1, ho1, hl1⟩ := hw
  obtain ⟨s2, h2, _, hl2⟩ := hr s1 hf1 hp1
  rw [Sys.high_written s s1 e.port e.pin v hd1 ho1 hout] at h2
  exact ⟨s1, s2, h1, h2, hl1, hl2⟩

theorem ActiveLowRead.of_run (get : BSP Int) (s : Sys) (e : PortPin_t)
    (hr : ReadsPin get s e 0 (-1) [.getPackageType]) : ActiveLowRead get s e := by
  obtain ⟨s1, h1, _, hl⟩ := hr
  refine ⟨_, s1, h1, ?_, ?_, by simpa using hl⟩
  · by_cases h : s.high e.port e.pin = true <;> simp [h]
  · by_cases h : s.high e.port e.pin = true <;> simp [h]

theorem PortPin_a_length (b : Board) : (PortPin_a b).length = 16 := rfl

theorem BSP_setDigitalPin_run (b : Board) (s : Sys) (p : Nat) (v : Int) (e : PortPin_t)
    (hfree : s.digitalPortHeld = false) (he : (PortPin_a b)[p]? = some e) :
    WritesPin (BSP_setDigitalPin b p v) s e (decide (v ≠ 0)) [] := by
  simp [WritesPin, BSP_setDigitalPin, BSP.bind_apply, osMutexAcquire, Sys.held, hfree,
    Sys.setHeld, osMutexRelease, index, he, HAL_GPIO_WritePin, GPIO_PIN_RESET]

theorem BSP_getDigitalPin_run (b : Board) (s : Sys) (p : Nat) (e : PortPin_t)
    (hfree : s.digitalPortHeld = false) (he : (PortPin_a b)[p]? = some e) :
    ReadsPin (BSP_getDigitalPin b p) s e 1 0 [] := by
  by_cases h : s.high e.port e.pin = true <;>
  simp [ReadsPin, BSP_getDigitalPin, BSP.bind_apply, BSP.pure_apply, osMutexAcquire, Sys.held,
    hfree, Sys.setHeld, osMutexRelease, index, he, HAL_GPIO_ReadPin, Sys.high_frame, h,
    GPIO_PIN_RESET, GPIO_PIN_SET]

theorem BSP_setLED1_run_compact (b : Board) (s : Sys) (state : Int)
    (hfree : s.digitalPortHeld = false) (hq : s.packageType = b.LL_UTILS_PACKAGETYPE_QFN48) :
    WritesPin (BSP_setLED1 b state) s ⟨b.LD1_DONGLE_GPIO_Port, b.LD1_DONGLE_Pin⟩
      (decide (state ≠ 0)) [.getPackageType] := by
  by_cases h : state = 0 <;>
  simp [WritesPin, BSP_setLED1, BSP.bind_apply, osMutexAcquire, Sys.held, hfree, Sys.setHeld,
    osMutexRelease, HAL_GPIO_WritePin, h, GPIO_PIN_RESET, GPIO_PIN_SET, LL_GetPackageType, hq]

theorem BSP_setLED1_run_standard (b : Board) (s : Sys) (state : Int)
    (hfree : s.digitalPortHeld = false) (hq : s.packageType ≠ b.LL_UTILS_PACKAGETYPE_QFN48) :
    WritesPin (BSP_setLED1 b state) s ⟨b.LD1_GPIO_Port, b.LD1_Pin⟩
      (decide (state ≠ 0)) [.getPackageType] := by
  by_cases h : state = 0 <;>
  simp [WritesPin, BSP_setLED1, BSP.bind_apply, osMutexAcquire, Sys.held, hfree, Sys.setHeld,
    osMutexRelease, HAL_GPIO_WritePin, h, GPIO_PIN_RESET, GPIO_PIN_SET, LL_GetPackageType, hq]

theorem BSP_getLED1_run_compact (b : Board) (s : Sys) (hfree : s.digitalPortHeld = false)
    (hq : s.packageType = b.LL_UTILS_PACKAGETYPE_QFN48) :
    ReadsPin (BSP_getLED1 b) s ⟨b.LD1_DONGLE_GPIO_Port, b.LD1_DONGLE_Pin⟩ (-1) 0
      [.getPackageType] := by
  by_cases h : s.high b.LD1_DONGLE_GPIO_Port b.LD1_DONGLE_Pin = true <;>
  simp [ReadsPin, BSP_getLED1, BSP.bind_apply, BSP.pure_apply, osMutexAcquire, Sys.held, hfree,
    Sys.setHeld, osMutexRelease, HAL_GPIO_ReadPin, GPIO_PIN_RESET, GPIO_PIN_SET, FALSE,
    Sys.high_frame, LL_GetPackageType, hq, h]

theorem BSP_getLED1_run_standard (b : Board) (s : Sys) (hfree : s.digitalPortHeld = false)
    (hq : s.packageType ≠ b.LL_UTILS_PACKAGETYPE_QFN48) :
    ReadsPin (BSP_getLED1 b) s ⟨b.LD1_GPIO_Port, b.LD1_Pin⟩ (-1) 0 [.getPackageType] := by
  by_cases h : s.high b.LD1_GPIO_Port b.LD1_Pin = true <;>
  simp [ReadsPin, BSP_getLED1, BSP.bind_apply, BSP.pure_apply, osMutexAcquire, Sys.held, hfree,
    Sys.setHeld, osMutexRelease, HAL_GPIO_ReadPin, GPIO_PIN_RESET, GPIO_PIN_SET, FALSE,
    Sys.high_frame, LL_GetPackageType, hq, h]

theorem BSP_setLED2_run (b : Board) (s : Sys) (state : Int) (hfree : s.digitalPortHeld = false) :
    WritesPin (BSP_setLED2 b state) s ⟨b.LD2_GPIO_Port, b.LD2_Pin⟩ (decide (state ≠ 0)) [] := by
  by_cases h : state = 0 <;>
  simp [WritesPin, BSP_setLED2, BSP.bind_apply, osMutexAcquire, Sys.held, hfree, Sys.setHeld,
    osMutexRelease, HAL_GPIO_WritePin, h, GPIO_PIN_RESET, GPIO_PIN_SET]

theorem BSP_getLED2_run (b : Board) (s : Sys) (hfree : s.digitalPortHeld = false) :
    ReadsPin (BSP_getLED2 b) s ⟨b.LD2_GPIO_Port, b.LD2_Pin⟩ (-1) 0 [] := by
  by_cases h : s.high b.LD2_GPIO_Port b.LD2_Pin = true <;>
  simp [ReadsPin, BSP_getLED2, BSP.bind_apply, BSP.pure_apply, osMutexAcquire, Sys.held, hfree,
    Sys.setHeld, osMutexRelease, HAL_GPIO_ReadPin, GPIO_PIN_RESET, GPIO_PIN_SET, FALSE,
    Sys.high_frame, h]

theorem BSP_setLED3_run (b : Board) (s : Sys) (state : Int) (hfree : s.digitalPortHeld = false) :
    WritesPin (BSP_setLED3 b state) s ⟨b.LD3_GPIO_Port, b.LD3_Pin⟩ (decide (state ≠ 0)) [] := by
  by_cases h : state = 0 <;>
  simp [WritesPin, BSP_setLED3, BSP.bind_apply, osMutexAcquire, Sys.held, hfree, Sys.setHeld,
    osMutexRelease, HAL_GPIO_WritePin, h, GPIO_PIN_RESET, GPIO_PIN_SET]

theorem BSP_getLED3_run (b : Board) (s : Sys) (hfree : s.digitalPortHeld = false) :
    ReadsPin (BSP_getLED3 b) s ⟨b.LD3_GPIO_Port, b.LD3_Pin⟩ (-1) 0 [] := by
  by_cases h : s.high b.LD3_GPIO_Port b.LD3_Pin = true <;>
  simp [ReadsPin, BSP_getLED3, BSP.bind_apply, BSP.pure_apply, osMutexAcquire, Sys.held, hfree,
    Sys.setHeld, osMutexRelease, HAL_GPIO_ReadPin, GPIO_PIN_RESET, GPIO_PIN_SET, FALSE,
    Sys.high_frame, h]

theorem BSP_getSwitch1_run_compact (b : Board) (s : Sys) (hfree : s.digitalPortHeld = false)
    (hq : s.packageType = b.LL_UTILS_PACKAGETYPE_QFN48) :
    ReadsPin (BSP_getSwitch1 b) s ⟨b.B1_DONGLE_GPIO_Port, b.B1_DONGLE_Pin⟩ 0 (-1)
      [.getPackageType] := by
  by_cases h : s.high b.B1_DONGLE_GPIO_Port b.B1_DONGLE_Pin = true <;>
  simp [ReadsPin, BSP_getSwitch1, BSP.bind_apply, BSP.pure_apply, osMutexAcquire, Sys.held, hfree,
    Sys.setHeld, osMutexRelease, HAL_GPIO_ReadPin, GPIO_PIN_RESET, GPIO_PIN_SET, FALSE,
    Sys.high_frame, LL_GetPackageType, hq, h]

theorem BSP_getSwitch1_run_standard (b : Board) (s : Sys) (hfree : s.digitalPortHeld = false)
    (hq : s.packageType ≠ b.LL_UTILS_PACKAGETYPE_QFN48) :
    ReadsPin (BSP_getSwitch1 b) s ⟨b.B1_GPIO_Port, b.B1_Pin⟩ 0 (-1) [.getPackageType] := by
  by_cases h : s.high b.B1_GPIO_Port b.B1_Pin = true <;>
  simp [ReadsPin, BSP_getSwitch1, BSP.bind_apply, BSP.pure_apply, osMutexAcquire, Sys.held, hfree,
    Sys.setHeld, osMutexRelease, HAL_GPIO_ReadPin, GPIO_PIN_RESET, GPIO_PIN_SET, FALSE,
    Sys.high_frame, LL_GetPackageType, hq, h]

theorem BSP_getSwitch2_run_standard (b : Board) (s : Sys) (hfree : s.digitalPortHeld = false)
    (hq : s.packageType ≠ b.LL_UTILS_PACKAGETYPE_QFN48) :
    ReadsPin (BSP_getSwitch2 b) s ⟨b.B2_GPIO_Port, b.B2_Pin⟩ 0 (-1) [.getPackageType] := by
  by_cases h : s.high b.B2_GPIO_Port b.B2_Pin = true <;>
  simp [ReadsPin, BSP_getSwitch2, BSP.bind_apply, BSP.pure_apply, osMutexAcquire, Sys.held, hfree,
    Sys.setHeld, osMutexRelease, HAL_GPIO_ReadPin, GPIO_PIN_RESET, GPIO_PIN_SET, FALSE,
    Sys.high_frame, LL_GetPackageType, hq, h]

theorem BSP_getSwitch3_run_standard (b : Board) (s : Sys) (hfree : s.digitalPortHeld = false)
    (hq : s.packageType ≠ b.LL_UTILS_PACKAGETYPE_QFN48) :
    ReadsPin (BSP_getSwitch3 b) s ⟨b.B3_GPIO_Port, b.B3_Pin⟩ 0 (-1) [.getPackageType] := by
  by_cases h : s.high b.B3_GPIO_Port b.B3_Pin = true <;>
  simp [ReadsPin, BSP_getSwitch3, BSP.bind_apply, BSP.pure_apply, osMutexAcquire, Sys.held, hfree,
    Sys.setHeld, osMutexRelease, HAL_GPIO_ReadPin, GPIO_PIN_RESET, GPIO_PIN_SET, FALSE,
    Sys.high_frame, LL_GetPackageType, hq, h]

theorem BSP_getSwitch2_run_compact (b : Board) (s : Sys) (hfree : s.digitalPortHeld = false)
    (hq : s.packageType = b.LL_UTILS_PACKAGETYPE_QFN48) :
    ∃ s1, BSP_getSwitch2 b s = .ok (0, s1) ∧ s1.digitalPortHeld = false ∧
      s1.log = s.log ++ [.mutexAcquire .DigitalPort_MutexID, .getPackageType,
        .mutexRelease .DigitalPort_MutexID] := by
  simp [BSP_getSwitch2, BSP.bind_apply, BSP.pure_apply, osMutexAcquire, Sys.held, hfree,
    Sys.setHeld, osMutexRelease, FALSE, LL_GetPackageType, hq]

theorem BSP_getSwitch3_run_compact (b : Board) (s : Sys) (hfree : s.digitalPortHeld = false)
    (hq : s.packageType = b.LL_UTILS_PACKAGETYPE_QFN48) :
    ∃ s1, BSP_getSwitch3 b s = .ok (0, s1) ∧ s1.digitalPortHeld = false ∧
      s1.log = s.log ++ [.mutexAcquire .DigitalPort_MutexID, .getPackageType,
        .mutexRelease .DigitalPort_MutexID] := by
  simp [BSP_getSwitch3, BSP.bind_apply, BSP.pure_apply, osMutexAcquire, Sys.held, hfree,
    Sys.setHeld, osMutexRelease, FALSE, LL_GetPackageType, hq]

/-! ## Lock discipline and the conversion protocol: lemmas -/

theorem bracketed_of_access (m : MutexId) (mid : List Event)
    (h : ∀ x ∈ mid, x.isAccess = true) :
    bracketed m (.mutexAcquire m :: mid ++ [.mutexRelease m]) = true := by
  have hall : ∀ x ∈ mid, (x != Event.mutexAcquire m && x != Event.mutexRelease m) = true := by
    intro x hx
    have := h x hx
    cases x <;> simp_all [Event.isAccess]
  simp only [bracketed, List.cons_append, beq_self_eq_true, Bool.true_and, Bool.and_eq_true]
  refine ⟨by simp, ?_⟩
  rw [List.dropLast_concat]
  exact List.all_eq_true.mpr hall

theorem LockedCall.of_writes (op : BSP Unit)
    (h : ∀ s : Sys, s.digitalPortHeld = false → ∃ e v probe, WritesPin op s e v probe ∧
      ∀ x ∈ probe, x.isAccess = true) :
    LockedCall .DigitalPort_MutexID op := by
  intro s hs
  obtain ⟨e, v, probe, ⟨s1, h1, hf, _, _, _, hl⟩, hp⟩ := h s hs
  refine ⟨(), s1, _, h1, hf, ?_, bracketed_of_access _ (probe ++ [.gpioWrite e.port e.pin v]) ?_⟩
  · rw [hl]; simp
  · intro x hx
    rcases List.mem_append.mp hx with hx | hx
    · exact hp x hx
    · simp at hx; subst hx; rfl

theorem LockedCall.of_reads (op : BSP Int)
    (h : ∀ s : Sys, s.digitalPortHeld = false → ∃ e hi lo probe, ReadsPin op s e hi lo probe ∧
      ∀ x ∈ probe, x.isAccess = true) :
    LockedCall .DigitalPort_MutexID op := by
  intro s hs
  obtain ⟨e, hi, lo, probe, ⟨s1, h1, hf, hl⟩, hp⟩ := h s hs
  refine ⟨_, s1, _, h1, hf, ?_, bracketed_of_access _ (probe ++ [.gpioRead e.port e.pin]) ?_⟩
  · rw [hl]; simp
  · intro x hx
    rcases List.mem_append.mp hx with hx | hx
    · exact hp x hx
    · simp at hx; subst hx; rfl

theorem index_ok {α : Type} (a : List α) (i : Nat) (x : α) (h : a[i]? = some x) (s : Sys) :
    index a (i : Int) s = .ok (x, s) := by
  simp [index, h]

theorem BSP_setDigitalPort_loop_run (b : Board) :
    ∀ (n i : Nat) (state : Int) (s : Sys), i + n ≤ 16 →
      ∃ s1 tr, BSP_setDigitalPort.loop b n i state s = .ok ((), s1) ∧ s1.log = s.log ++ tr ∧
        (∀ x ∈ tr, x.isAccess = true) ∧ s1.digitalPortHeld = s.digitalPortHeld := by
  intro n
  induction n with
  | zero => intro i state s _; exact ⟨s, [], rfl, by simp, by simp, rfl⟩
  | succ n ih =>
    intro i state s hi
    obtain ⟨e, he⟩ : ∃ e, (PortPin_a b)[i]? = some e :=
      ⟨_, List.getElem?_eq_getElem (by rw [PortPin_a_length]; omega)⟩
    obtain ⟨s1, tr, h1, hl, ha, hd⟩ := ih (i + 1) (state >>> 1)
      { s with
        odr := fun p k =>
          if p = e.port ∧ k < 16 ∧ e.pin.testBit k = true then
            decide (Int.land state 0x01 ≠ GPIO_PIN_RESET)
          else s.odr p k,
        log := s.log ++ [.gpioWrite e.port e.pin (decide (Int.land state 0x01 ≠ GPIO_PIN_RESET))] }
      (by omega)
    refine ⟨s1, .gpioWrite e.port e.pin (decide (Int.land state 0x01 ≠ GPIO_PIN_RESET)) :: tr,
      ?_, ?_, ?_, hd⟩
    · rw [BSP_setDigitalPort.loop, BSP.bind_apply, index_ok _ i e he]
      simp only [BSP.bind_apply, HAL_GPIO_WritePin]
      exact h1
    · rw [hl]; simp
    · intro x hx
      rcases List.mem_cons.mp hx with rfl | hx
      · rfl
      · exact ha x hx

theorem BSP_getDigitalPort_loop_run (b : Board) :
    ∀ (i : Nat) (rv : Int) (s : Sys), i ≤ 16 →
      ∃ r s1 tr, BSP_getDigitalPort.loop b i rv s = .ok (r, s1) ∧ s1.log = s.log ++ tr ∧
        (∀ x ∈ tr, x.isAccess = true) ∧ s1.digitalPortHeld = s.digitalPortHeld := by
  intro i
  induction i with
  | zero => intro rv s _; exact ⟨rv, s, [], rfl, by simp, by simp, rfl⟩
  | succ i ih =>
    intro rv s hi
    obtain ⟨e, he⟩ : ∃ e, (PortPin_a b)[i]? = some e :=
      ⟨_, List.getElem?_eq_getElem (by rw [PortPin_a_length]; omega)⟩
    obtain ⟨r, s1, tr, h1, hl, ha, hd⟩ := ih
      (Int.lor (rv * 2) (if s.high e.port e.pin = true then GPIO_PIN_SET else GPIO_PIN_RESET))
      { s with log := s.log ++ [.gpioRead e.port e.pin] } (by omega)
    refine ⟨r, s1, .gpioRead e.port e.pin :: tr, ?_, ?_, ?_, hd⟩
    · rw [BSP_getDigitalPort.loop, BSP.bind_apply, index_ok _ i e he]
      simp only [BSP.bind_apply, HAL_GPIO_ReadPin]
      exact h1
    · rw [hl]; simp
    · intro x hx
      rcases List.mem_cons.mp hx with rfl | hx
      · rfl
      · exact ha x hx

theorem BSP_setDigitalPort_locked (b : Board) (state : Int) :
    LockedCall .DigitalPort_MutexID (BSP_setDigitalPort b state) := by
  intro s hs
  simp only [Sys.held] at hs
  obtain ⟨s1, tr, h1, hl, ha, hd⟩ := BSP_setDigitalPort_loop_run b 16 0 state
    { s with digitalPortHeld := true, log := s.log ++ [.mutexAcquire .DigitalPort_MutexID] }
    (by omega)
  refine ⟨(), ({ s1 with digitalPortHeld := false,
                          log := s1.log ++ [.mutexRelease .DigitalPort_MutexID] } : Sys),
    .mutexAcquire .DigitalPort_MutexID :: tr ++ [.mutexRelease .DigitalPort_MutexID], ?_, rfl, ?_,
    bracketed_of_access _ tr ha⟩
  · simp only [BSP_setDigitalPort, BSP.bind_apply, osMutexAcquire, Sys.held, hs, Sys.setHeld]
    simp only [Bool.false_eq_true, if_false]
    rw [h1]
    rfl
  · simp [hl]

theorem osSemaphoreAcquire.wait_of_pos (irqs : List AdcIrq) (s : Sys) (h : 0 < s.adcSemaphore) :
    osSemaphoreAcquire.wait irqs s =
      .ok ((), { s with adcSemaphore := s.adcSemaphore - 1,
                        log := s.log ++ [.semaphoreAcquire] }) := by
  cases irqs <;> simp [osSemaphoreAcquire.wait, h]

theorem HAL_ADC_IRQHandler_run (q : AdcIrq) (s s1 : Sys)
    (h : HAL_ADC_IRQHandler q s = .ok ((), s1)) :
    ∃ tr, s1.log = s.log ++ tr ∧ (∀ x ∈ tr, x.isAccess = true) ∧ s1.adcHeld = s.adcHeld ∧
      s1.sConfig_Channel = s.sConfig_Channel ∧ s1.adcIrq = s.adcIrq ∧
      s1.adcRunning = s.adcRunning := by
  cases q with
  | convCplt x =>
    simp [HAL_ADC_IRQHandler, HAL_ADC_ConvCpltCallback, osSemaphoreRelease] at h
    subst h
    exact ⟨[.semaphoreRelease], rfl, by simp [Event.isAccess], rfl, rfl, rfl, rfl⟩
  | error =>
    by_cases hr : s.errorHandlerReturns = true
    · simp [HAL_ADC_IRQHandler, HAL_ADC_ErrorCallback, BSP.bind_apply, Error_Handler, hr,
        osSemaphoreRelease] at h
      subst h
      exact ⟨[.errorHandler, .semaphoreRelease], by simp, by simp [Event.isAccess], rfl, rfl, rfl, rfl⟩
    · simp [HAL_ADC_IRQHandler, HAL_ADC_ErrorCallback, BSP.bind_apply, Error_Handler, hr] at h

theorem osSemaphoreAcquire.wait_run :
    ∀ (irqs : List AdcIrq) (s s1 : Sys), osSemaphoreAcquire.wait irqs s = .ok ((), s1) →
      ∃ tr, s1.log = s.log ++ tr ∧ (∀ x ∈ tr, x.isAccess = true) ∧ s1.adcHeld = s.adcHeld ∧
        s1.sConfig_Channel = s.sConfig_Channel := by
  intro irqs
  induction irqs with
  | nil =>
    intro s s1 h
    by_cases hp : 0 < s.adcSemaphore
    · simp [osSemaphoreAcquire.wait, hp] at h
      subst h
      exact ⟨[.semaphoreAcquire], rfl, by simp [Event.isAccess], rfl, rfl⟩
    · simp [osSemaphoreAcquire.wait, hp] at h
  | cons q rest ih =>
    intro s s1 h
    by_cases hp : 0 < s.adcSemaphore
    · rw [osSemaphoreAcquire.wait_of_pos _ _ hp] at h
      simp at h
      subst h
      exact ⟨[.semaphoreAcquire], rfl, by simp [Event.isAccess], rfl, rfl⟩
    · by_cases hrun : s.adcRunning = true
      · rw [osSemaphoreAcquire.wait, if_neg hp, if_pos hrun] at h
        cases hq : HAL_ADC_IRQHandler q { s with adcIrq := rest } with
        | error e => rw [hq] at h; simp at h
        | ok v =>
          obtain ⟨u, s2⟩ := v
          rw [hq] at h
          simp only at h
          obtain ⟨tr1, hl1, ha1, hh1, hc1, _, _⟩ := HAL_ADC_IRQHandler_run q _ s2 hq
          obtain ⟨tr2, hl2, ha2, hh2, hc2⟩ := ih s2 s1 h
          refine ⟨tr1 ++ tr2, ?_, ?_, ?_, ?_⟩
          · rw [hl2, hl1]; simp
          · intro x hx
            rcases List.mem_append.mp hx with hx | hx
            · exact ha1 x hx
            · exact ha2 x hx
          · rw [hh2, hh1]
          · rw [hc2, hc1]
      · simp [osSemaphoreAcquire.wait, hp, hrun] at h

/-- What every returning call of `BSP_getAnalogPin` has done. -/
theorem BSP_getAnalogPin_run (b : Board) (s : Sys) (i : Nat) (c : Nat)
    (hc : (AnalogPortPin_a b)[i]? = some c) (hfree : s.adcHeld = false) (r : Int) (s1 : Sys)
    (h : BSP_getAnalogPin b i s = .ok (r, s1)) :
    (0 ≤ r ∧ r ≤ 4095) ∧ s1.adcHeld = false ∧ s1.sConfig_Channel = c ∧
    ∃ mid rest, s1.log = s.log ++ [.mutexAcquire .Adc_MutexID, .adcConfigChannel c] ++ mid ++
        [.adcStart_IT] ++ rest ++ [.mutexRelease .Adc_MutexID] ∧
      (∀ x ∈ mid, x = .errorHandler) ∧ (∀ x ∈ rest, x.isAccess = true) := by
  have fin : ∀ (irqs : List AdcIrq) (s5 s6 : Sys) (u : Unit) (mid pre : List Event),
      s5.log = s.log ++ [.mutexAcquire .Adc_MutexID, .adcConfigChannel c] ++ mid ++
        [.adcStart_IT] ++ pre →
      (∀ x ∈ mid, x = .errorHandler) → (∀ x ∈ pre, x.isAccess = true) →
      s5.sConfig_Channel = c →
      osSemaphoreAcquire.wait irqs s5 = .ok (u, s6) →
      (Except.ok (((s6.adcDR : Int) % 4096),
            ({ s6 with adcHeld := false, adcRunning := false,
                       log := s6.log ++ [Event.adcGetValue, Event.adcStop_IT,
                         Event.mutexRelease MutexId.Adc_MutexID] } : Sys)) :
          Except Fault (Int × Sys)) = Except.ok (r, s1) →
      (0 ≤ r ∧ r ≤ 4095) ∧ s1.adcHeld = false ∧ s1.sConfig_Channel = c ∧
      ∃ mid rest, s1.log = s.log ++ [.mutexAcquire .Adc_MutexID, .adcConfigChannel c] ++ mid ++
          [.adcStart_IT] ++ rest ++ [.mutexRelease .Adc_MutexID] ∧
        (∀ x ∈ mid, x = .errorHandler) ∧ (∀ x ∈ rest, x.isAccess = true) := by
    intro irqs s5 s6 u mid pre hl5 hmid hpre hc5 hw hm
    simp only [Except.ok.injEq, Prod.mk.injEq] at hm
    obtain ⟨rfl, rfl⟩ := hm
    obtain ⟨tr, hl, ha, _, hcc⟩ := osSemaphoreAcquire.wait_run _ _ _ hw
    refine ⟨⟨by omega, by omega⟩, rfl, hcc.trans hc5, mid,
      pre ++ tr ++ [.adcGetValue, .adcStop_IT], ?_, hmid, ?_⟩
    · simp [hl, hl5]
    · intro x hx
      simp only [List.mem_append, List.mem_cons, List.mem_singleton, List.not_mem_nil,
        or_false] at hx
      rcases hx with (hx | hx) | hx | hx
      · exact hpre x hx
      · exact ha x hx
      · subst hx; rfl
      · subst hx; rfl
  by_cases hcs : s.adcConfigStatus = .HAL_OK <;> by_cases hss : s.adcStartStatus = .HAL_OK <;>
    by_cases hr : s.errorHandlerReturns = true <;>
    simp [BSP_getAnalogPin, BSP.bind_apply, BSP.pure_apply, osMutexAcquire, Sys.held, hfree,
      Sys.setHeld, index_ok _ i c hc, assign_sConfig_Channel, HAL_ADC_ConfigChannel,
      HAL_ADC_Start_IT, osSemaphoreAcquire, HAL_ADC_GetValue, HAL_ADC_Stop_IT, osMutexRelease,
      Error_Handler, hcs, hss, hr] at h
  all_goals (split at h; · simp at h)
  all_goals rename_i u s6 hw
  · refine fin _ _ _ _ [] [] ?_ ?_ ?_ ?_ hw h <;> simp [Event.isAccess]
  · refine fin _ _ _ _ [] [] ?_ ?_ ?_ ?_ hw h <;> simp [Event.isAccess]
  · refine fin _ _ _ _ [] [.errorHandler] ?_ ?_ ?_ ?_ hw h <;> simp [Event.isAccess]
  · refine fin _ _ _ _ [.errorHandler] [] ?_ ?_ ?_ ?_ hw h <;> simp [Event.isAccess]
  · refine fin _ _ _ _ [.errorHandler] [.errorHandler] ?_ ?_ ?_ ?_ hw h <;> simp [Event.isAccess]

theorem AnalogPortPin_a_length (b : Board) : (AnalogPortPin_a b).length = 6 := rfl

theorem DigitalPortPinMode_a_length (b : Board) : (DigitalPortPinMode_a b).length = 6 := rfl

theorem LockedCall.of_mid {α : Type} (op : BSP α)
    (h : ∀ s : Sys, s.digitalPortHeld = false → ∃ r s1 mid, op s = .ok (r, s1) ∧
      s1.digitalPortHeld = false ∧
      s1.log = s.log ++ [.mutexAcquire .DigitalPort_MutexID] ++ mid ++
        [.mutexRelease .DigitalPort_MutexID] ∧
      ∀ x ∈ mid, x.isAccess = true) :
    LockedCall .DigitalPort_MutexID op := by
  intro s hs
  obtain ⟨r, s1, mid, h1, hf, hl, hm⟩ := h s hs
  exact ⟨r, s1, _, h1, hf, by rw [hl]; simp, bracketed_of_access _ mid hm⟩

theorem BSP_setLED1_locked (b : Board) (state : Int) :
    LockedCall .DigitalPort_MutexID (BSP_setLED1 b state) := by
  refine LockedCall.of_writes _ (fun s hs => ?_)
  by_cases hq : s.packageType = b.LL_UTILS_PACKAGETYPE_QFN48
  · exact ⟨_, _, _, BSP_setLED1_run_compact b s state hs hq, by simp [Event.isAccess]⟩
  · exact ⟨_, _, _, BSP_setLED1_run_standard b s state hs hq, by simp [Event.isAccess]⟩

theorem BSP_getLED1_locked (b : Board) : LockedCall .DigitalPort_MutexID (BSP_getLED1 b) := by
  refine LockedCall.of_reads _ (fun s hs => ?_)
  by_cases hq : s.packageType = b.LL_UTILS_PACKAGETYPE_QFN48
  · exact ⟨_, _, _, _, BSP_getLED1_run_compact b s hs hq, by simp [Event.isAccess]⟩
  · exact ⟨_, _, _, _, BSP_getLED1_run_standard b s hs hq, by simp [Event.isAccess]⟩

theorem BSP_getSwitch1_locked (b : Board) :
    LockedCall .DigitalPort_MutexID (BSP_getSwitch1 b) := by
  refine LockedCall.of_reads _ (fun s hs => ?_)
  by_cases hq : s.packageType = b.LL_UTILS_PACKAGETYPE_QFN48
  · exact ⟨_, _, _, _, BSP_getSwitch1_run_compact b s hs hq, by simp [Event.isAccess]⟩
  · exact ⟨_, _, _, _, BSP_getSwitch1_run_standard b s hs hq, by simp [Event.isAccess]⟩

theorem BSP_getSwitch2_locked (b : Board) :
    LockedCall .DigitalPort_MutexID (BSP_getSwitch2 b) := by
  refine LockedCall.of_mid _ (fun s hs => ?_)
  by_cases hq : s.packageType = b.LL_UTILS_PACKAGETYPE_QFN48
  · obtain ⟨s1, h1, hf, hl⟩ := BSP_getSwitch2_run_compact b s hs hq
    exact ⟨_, s1, [.getPackageType], h1, hf, by rw [hl]; simp, by simp [Event.isAccess]⟩
  · obtain ⟨s1, h1, hf, hl⟩ := BSP_getSwitch2_run_standard b s hs hq
    exact ⟨_, s1, [.getPackageType, .gpioRead b.B2_GPIO_Port b.B2_Pin], h1, hf,
      by rw [hl]; simp, by simp [Event.isAccess]⟩

theorem BSP_getSwitch3_locked (b : Board) :
    LockedCall .DigitalPort_MutexID (BSP_getSwitch3 b) := by
  refine LockedCall.of_mid _ (fun s hs => ?_)
  by_cases hq : s.packageType = b.LL_UTILS_PACKAGETYPE_QFN48
  · obtain ⟨s1, h1, hf, hl⟩ := BSP_getSwitch3_run_compact b s hs hq
    exact ⟨_, s1, [.getPackageType], h1, hf, by rw [hl]; simp, by simp [Event.isAccess]⟩
  · obtain ⟨s1, h1, hf, hl⟩ := BSP_getSwitch3_run_standard b s hs hq
    exact ⟨_, s1, [.getPackageType, .gpioRead b.B3_GPIO_Port b.B3_Pin], h1, hf,
      by rw [hl]; simp, by simp [Event.isAccess]⟩

theorem BSP_getDigitalPort_locked (b : Board) :
    LockedCall .DigitalPort_MutexID (BSP_getDigitalPort b) := by
  intro s hs
  simp only [Sys.held] at hs
  obtain ⟨r, s1, tr, h1, hl, ha, hd⟩ := BSP_getDigitalPort_loop_run b 16 0
    { s with digitalPortHeld := true, log := s.log ++ [.mutexAcquire .DigitalPort_MutexID] }
    (by omega)
  refine ⟨r, ({ s1 with digitalPortHeld := false,
                        log := s1.log ++ [.mutexRelease .DigitalPort_MutexID] } : Sys),
    .mutexAcquire .DigitalPort_MutexID :: tr ++ [.mutexRelease .DigitalPort_MutexID], ?_, rfl, ?_,
    bracketed_of_access _ tr ha⟩
  · simp only [BSP_getDigitalPort, BSP.bind_apply, osMutexAcquire, Sys.held, hs, Sys.setHeld]
    simp only [Bool.false_eq_true, if_false]
    rw [h1]
    rfl
  · simp [hl]

theorem BSP_setDigitalPinMode_run (b : Board) (s : Sys) (p mode : Nat) (e : PortPin_t)
    (m : PortPinMode_t) (hfree : s.digitalPortHeld = false)
    (he : (PortPin_a b)[p]? = some e) (hm : (DigitalPortPinMode_a b)[mode]? = some m) :
    BSP_setDigitalPinMode b p mode s = .ok ((), { s with
      driven := fun q k =>
        if q = e.port ∧ k < 16 ∧ e.pin.testBit k = true then decide (m.mode = b.GPIO_MODE_OUTPUT_PP)
        else s.driven q k,
      log := s.log ++ [.mutexAcquire .DigitalPort_MutexID, .gpioInit e.port e.pin m.mode m.pull,
        .mutexRelease .DigitalPort_MutexID] }) := by
  simp [BSP_setDigitalPinMode, BSP.bind_apply, osMutexAcquire, Sys.held, hfree, Sys.setHeld,
    osMutexRelease, index_ok _ p e he, index_ok _ mode m hm, HAL_GPIO_Init]

theorem BSP_setDigitalPinMode_locked (b : Board) (p mode : Nat) (hp : p < 16) (hm : mode < 6) :
    LockedCall .DigitalPort_MutexID (BSP_setDigitalPinMode b p mode) := by
  obtain ⟨e, he⟩ : ∃ e, (PortPin_a b)[p]? = some e :=
    ⟨_, List.getElem?_eq_getElem (by rw [PortPin_a_length]; exact hp)⟩
  obtain ⟨m, hmm⟩ : ∃ m, (DigitalPortPinMode_a b)[mode]? = some m :=
    ⟨_, List.getElem?_eq_getElem (by rw [DigitalPortPinMode_a_length]; exact hm)⟩
  refine LockedCall.of_mid _ (fun s hs => ?_)
  exact ⟨(), _, [.gpioInit e.port e.pin m.mode m.pull],
    BSP_setDigitalPinMode_run b s p mode e m hs he hmm, hs, by simp, by simp [Event.isAccess]⟩

theorem BSP_setPwmPin_locked (b : Board) (p v : Int) :
    LockedCall .DigitalPort_MutexID (BSP_setPwmPin b p v) := by
  refine LockedCall.of_mid _ (fun s hs => ?_)
  have h1 : BSP_setPwmPin b p v s = .ok ((), { s with
      log := s.log ++ [.mutexAcquire .DigitalPort_MutexID,
        .mutexRelease .DigitalPort_MutexID] }) := by
    simp [BSP_setPwmPin, BSP.bind_apply, osMutexAcquire, Sys.held, hs, Sys.setHeld,
      osMutexRelease]
  exact ⟨(), _, [], h1, hs, by simp, by simp⟩

theorem osSemaphoreAcquire.wait_convCplt (x : Nat) (rest : List AdcIrq) (s : Sys)
    (hsem : s.adcSemaphore = 0) (hrun : s.adcRunning = true) :
    osSemaphoreAcquire.wait (.convCplt x :: rest) s =
      .ok ((), { s with adcIrq := rest, adcDR := x, adcSemaphore := 0,
                        log := s.log ++ [.semaphoreRelease, .semaphoreAcquire] }) := by
  rw [osSemaphoreAcquire.wait, if_neg (by omega), if_pos hrun]
  simp only [HAL_ADC_IRQHandler, HAL_ADC_ConvCpltCallback, osSemaphoreRelease]
  rw [osSemaphoreAcquire.wait_of_pos _ _ (by simp [hsem])]
  simp [hsem]

theorem osSemaphoreAcquire.wait_error (rest : List AdcIrq) (s : Sys)
    (hsem : s.adcSemaphore = 0) (hrun : s.adcRunning = true)
    (hret : s.errorHandlerReturns = true) :
    osSemaphoreAcquire.wait (.error :: rest) s =
      .ok ((), { s with adcIrq := rest, adcSemaphore := 0,
                        log := s.log ++ [.errorHandler, .semaphoreRelease,
                          .semaphoreAcquire] }) := by
  rw [osSemaphoreAcquire.wait, if_neg (by omega), if_pos hrun]
  simp only [HAL_ADC_IRQHandler, HAL_ADC_ErrorCallback, BSP.bind_apply, Error_Handler, hret,
    if_true, osSemaphoreRelease]
  rw [osSemaphoreAcquire.wait_of_pos _ _ (by simp [hsem])]
  simp [hsem]

theorem osSemaphoreAcquire.wait_halted (rest : List AdcIrq) (s : Sys)
    (hsem : s.adcSemaphore = 0) (hrun : s.adcRunning = true)
    (hret : s.errorHandlerReturns = false) :
    osSemaphoreAcquire.wait (.error :: rest) s = .error .halted := by
  rw [osSemaphoreAcquire.wait, if_neg (by omega), if_pos hrun]
  simp [HAL_ADC_IRQHandler, HAL_ADC_ErrorCallback, BSP.bind_apply, Error_Handler, hret]

theorem BSP_getAnalogPin_convCplt (b : Board) (s : Sys) (i c : Nat)
    (hc : (AnalogPortPin_a b)[i]? = some c) (hfree : s.adcHeld = false)
    (hcs : s.adcConfigStatus = .HAL_OK) (hss : s.adcStartStatus = .HAL_OK)
    (hsem : s.adcSemaphore = 0) (x : Nat) (rest : List AdcIrq)
    (hirq : s.adcIrq = .convCplt x :: rest) :
    BSP_getAnalogPin b i s = .ok (((x % 4096 : Nat) : Int), { s with
      sConfig_Channel := c, adcChannel := c, adcRunning := false, adcDR := x, adcIrq := rest,
      log := s.log ++ [.mutexAcquire .Adc_MutexID, .adcConfigChannel c, .adcStart_IT,
        .semaphoreRelease, .semaphoreAcquire, .adcGetValue, .adcStop_IT,
        .mutexRelease .Adc_MutexID] }) := by
  simp [BSP_getAnalogPin, BSP.bind_apply, BSP.pure_apply, osMutexAcquire, Sys.held, hfree,
    Sys.setHeld, index_ok _ i c hc, assign_sConfig_Channel, HAL_ADC_ConfigChannel,
    HAL_ADC_Start_IT, osSemaphoreAcquire, hcs, hss, hirq, osSemaphoreAcquire.wait_convCplt, hsem,
    HAL_ADC_GetValue, HAL_ADC_Stop_IT, osMutexRelease]

theorem BSP_getAnalogPin_error (b : Board) (s : Sys) (i c : Nat)
    (hc : (AnalogPortPin_a b)[i]? = some c) (hfree : s.adcHeld = false)
    (hcs : s.adcConfigStatus = .HAL_OK) (hss : s.adcStartStatus = .HAL_OK)
    (hsem : s.adcSemaphore = 0) (rest : List AdcIrq)
    (hirq : s.adcIrq = .error :: rest) (hret : s.errorHandlerReturns = true) :
    BSP_getAnalogPin b i s = .ok (((s.adcDR % 4096 : Nat) : Int), { s with
      sConfig_Channel := c, adcChannel := c, adcRunning := false, adcIrq := rest,
      log := s.log ++ [.mutexAcquire .Adc_MutexID, .adcConfigChannel c, .adcStart_IT,
        .errorHandler, .semaphoreRelease, .semaphoreAcquire, .adcGetValue, .adcStop_IT,
        .mutexRelease .Adc_MutexID] }) := by
  simp [BSP_getAnalogPin, BSP.bind_apply, BSP.pure_apply, osMutexAcquire, Sys.held, hfree,
    Sys.setHeld, index_ok _ i c hc, assign_sConfig_Channel, HAL_ADC_ConfigChannel,
    HAL_ADC_Start_IT, osSemaphoreAcquire, hcs, hss, hirq, osSemaphoreAcquire.wait_error, hsem,
    HAL_ADC_GetValue, HAL_ADC_Stop_IT, osMutexRelease, hret]

theorem BSP_getAnalogPin_returns (b : Board) (s : Sys) (i c : Nat)
    (hc : (AnalogPortPin_a b)[i]? = some c) (hfree : s.adcHeld = false)
    (h : s.conversionEnds) : ∃ r s1, BSP_getAnalogPin b i s = .ok (r, s1) := by
  obtain ⟨hcs, hss, h3⟩ := h
  obtain ⟨q, rest, hirq, hq⟩ : ∃ q rest, s.adcIrq = q :: rest ∧
      (q = .error → s.errorHandlerReturns = true) := by
    cases hirq : s.adcIrq with
    | nil => rw [hirq] at h3; exact h3.elim
    | cons q rest => rw [hirq] at h3; exact ⟨q, rest, rfl, h3⟩
  by_cases hp : 0 < s.adcSemaphore
  · simp [BSP_getAnalogPin, BSP.bind_apply, BSP.pure_apply, osMutexAcquire, Sys.held, hfree,
      Sys.setHeld, index_ok _ i c hc, assign_sConfig_Channel, HAL_ADC_ConfigChannel,
      HAL_ADC_Start_IT, osSemaphoreAcquire, hcs, hss, osSemaphoreAcquire.wait_of_pos, hp,
      HAL_ADC_GetValue, HAL_ADC_Stop_IT, osMutexRelease]
  · have hsem : s.adcSemaphore = 0 := by omega
    cases q with
    | convCplt x => exact ⟨_, _, BSP_getAnalogPin_convCplt b s i c hc hfree hcs hss hsem x rest hirq⟩
    | error =>
      exact ⟨_, _, BSP_getAnalogPin_error b s i c hc hfree hcs hss hsem rest hirq (hq rfl)⟩

/-- With an `Error_Handler` that does not return, a conversion that ends with an
error never gives the call back to its caller. -/
theorem BSP_getAnalogPin_halted (b : Board) (s : Sys) (i c : Nat)
    (hc : (AnalogPortPin_a b)[i]? = some c) (hfree : s.adcHeld = false)
    (hcs : s.adcConfigStatus = .HAL_OK) (hss : s.adcStartStatus = .HAL_OK)
    (hsem : s.adcSemaphore = 0) (rest : List AdcIrq)
    (hirq : s.adcIrq = .error :: rest) (hret : s.errorHandlerReturns = false) :
    BSP_getAnalogPin b i s = .error .halted := by
  simp [BSP_getAnalogPin, BSP.bind_apply, BSP.pure_apply, osMutexAcquire, Sys.held, hfree,
    Sys.setHeld, index_ok _ i c hc, assign_sConfig_Channel, HAL_ADC_ConfigChannel,
    HAL_ADC_Start_IT, osSemaphoreAcquire, hcs, hss, hirq, osSemaphoreAcquire.wait_halted, hsem,
    hret]

/-! ## Pins, LEDs and switches -/

theorem getDigitalPin_after_setDigitalPin_core (b : Board) (s : Sys) (p : Nat) (v : Int)
    (hv : v = 0 ∨ v = 1) (hfree : s.digitalPortHeld = false)
    (hout : ∃ e, (PortPin_a b)[p]? = some e ∧ s.isOutput e) :
    retval ((BSP_setDigitalPin b p v >>= fun _ => BSP_getDigitalPin b p) s) = some v := by
  obtain ⟨e, he, hout⟩ := hout
  obtain ⟨s1, s2, h1, h2, _, _⟩ :=
    SetThenGet.of_runs (BSP_setDigitalPin b p v) (BSP_getDigitalPin b p) s e (decide (v ≠ 0)) 1 0 []
      hout (BSP_setDigitalPin_run b s p v e hfree he)
      (fun s1 hf _ => BSP_getDigitalPin_run b s1 p e hf he)
  rw [BSP.bind_apply, h1]
  simp only
  rw [h2]
  rcases hv with rfl | rfl <;> simp [retval]

/-- Through the functions of `bsp.c` alone: after `BSP_setDigitalPinMode p 3`
(push-pull output) a pin written with `v` reads back `v`, whatever the mode
of the pin was before. -/
theorem BSP_getDigitalPin_after_setDigitalPinMode_pushpull (b : Board) (s : Sys) (p : Nat)
    (v : Int) (hv : v = 0 ∨ v = 1) (hfree : s.digitalPortHeld = false)
    (hpin : ∃ e, (PortPin_a b)[p]? = some e ∧ ∃ k, k < 16 ∧ e.pin.testBit k = true) :
    retval ((BSP_setDigitalPinMode b p (3 : Nat) >>= fun _ => BSP_setDigitalPin b p v >>= fun _ =>
      BSP_getDigitalPin b p) s) = some v := by
  obtain ⟨e, he, hne⟩ := hpin
  rw [BSP.bind_apply, BSP_setDigitalPinMode_run b s p 3 e ⟨b.GPIO_MODE_OUTPUT_PP, b.GPIO_NOPULL⟩
    hfree he rfl]
  simp only
  refine getDigitalPin_after_setDigitalPin_core b _ p v hv hfree ⟨e, he, hne, ?_⟩
  intro k hk hb
  simp [hk, hb]

/-- C4: for each of the three LEDs and on both board variants, `BSP_getLEDn`
called right after `BSP_setLEDn state` returns -1 when `state` is not 0 and 0
when it is 0, and the read addresses the very pin that the write addressed:
for LED1 the dongle pin on the QFN48 package and the Nucleo pin otherwise.
The mutex is free at the start and the LED pin is a driven output. -/
theorem BSP_getLED_after_setLED (b : Board) (s : Sys) (state : Int)
    (hfree : s.digitalPortHeld = false) :
    (s.packageType = b.LL_UTILS_PACKAGETYPE_QFN48 →
      s.isOutput ⟨b.LD1_DONGLE_GPIO_Port, b.LD1_DONGLE_Pin⟩ →
      SetThenGet (BSP_setLED1 b state) (BSP_getLED1 b) s
        ⟨b.LD1_DONGLE_GPIO_Port, b.LD1_DONGLE_Pin⟩ (decide (state ≠ 0))
        (if state ≠ 0 then -1 else 0) [.getPackageType]) ∧
    (s.packageType ≠ b.LL_UTILS_PACKAGETYPE_QFN48 →
      s.isOutput ⟨b.LD1_GPIO_Port, b.LD1_Pin⟩ →
      SetThenGet (BSP_setLED1 b state) (BSP_getLED1 b) s
        ⟨b.LD1_GPIO_Port, b.LD1_Pin⟩ (decide (state ≠ 0))
        (if state ≠ 0 then -1 else 0) [.getPackageType]) ∧
    (s.isOutput ⟨b.LD2_GPIO_Port, b.LD2_Pin⟩ →
      SetThenGet (BSP_setLED2 b state) (BSP_getLED2 b) s
        ⟨b.LD2_GPIO_Port, b.LD2_Pin⟩ (decide (state ≠ 0))
        (if state ≠ 0 then -1 else 0) []) ∧
    (s.isOutput ⟨b.LD3_GPIO_Port, b.LD3_Pin⟩ →
      SetThenGet (BSP_setLED3 b state) (BSP_getLED3 b) s
        ⟨b.LD3_GPIO_Port, b.LD3_Pin⟩ (decide (state ≠ 0))
        (if state ≠ 0 then -1 else 0) []) := by
  have flag : (if decide (state ≠ 0) = true then (-1 : Int) else 0) = if state ≠ 0 then -1 else 0 := by
    by_cases h : state = 0 <;> simp [h]
  refine ⟨fun hq hout => ?_, fun hq hout => ?_, fun hout => ?_, fun hout => ?_⟩
  · rw [← flag]
    exact SetThenGet.of_runs _ _ s _ _ (-1) 0 _ hout (BSP_setLED1_run_compact b s state hfree hq)
      (fun s1 hf hp => BSP_getLED1_run_compact b s1 hf (hp.trans hq))
  · rw [← flag]
    exact SetThenGet.of_runs _ _ s _ _ (-1) 0 _ hout (BSP_setLED1_run_standard b s state hfree hq)
      (fun s1 hf hp => BSP_getLED1_run_standard b s1 hf (by rw [hp]; exact hq))
  · rw [← flag]
    exact SetThenGet.of_runs _ _ s _ _ (-1) 0 _ hout (BSP_setLED2_run b s state hfree)
      (fun s1 hf _ => BSP_getLED2_run b s1 hf)
  · rw [← flag]
    exact SetThenGet.of_runs _ _ s _ _ (-1) 0 _ hout (BSP_setLED3_run b s state hfree)
      (fun s1 hf _ => BSP_getLED3_run b s1 hf)

/-- C4 on the sample board: LED2 set with 5 from the state at rest reads back
-1, and LED1 set with 0 on the QFN48 package reads back 0 from the dongle
pin PA4. -/
theorem BSP_getLED_after_setLED_witness :
    idle.digitalPortHeld = false ∧
    SetThenGet (BSP_setLED2 sampleBoard 5) (BSP_getLED2 sampleBoard) idle ⟨1, 1⟩ true (-1) [] ∧
    SetThenGet (BSP_setLED1 sampleBoard 0) (BSP_getLED1 sampleBoard)
      { idle with packageType := 0x0A } ⟨0, 0x0010⟩ false 0 [.getPackageType] :=
  ⟨rfl, (BSP_getLED_after_setLED sampleBoard idle 5 rfl).2.2.1 (by decide),
    (BSP_getLED_after_setLED sampleBoard { idle with packageType := 0x0A } 0 rfl).1 rfl
      (by decide)⟩

/-- C5: on the QFN48 package `BSP_getSwitch2` and `BSP_getSwitch3` return 0 from
every state in which the mutex is free, whatever the pins show, and between
acquiring and releasing the mutex they only query the package type: no pin is
read. -/
theorem BSP_getSwitch2_getSwitch3_compact (b : Board) (s : Sys)
    (hq : s.packageType = b.LL_UTILS_PACKAGETYPE_QFN48) (hfree : s.digitalPortHeld = false) :
    (∃ s1, BSP_getSwitch2 b s = .ok (0, s1) ∧
      s1.log = s.log ++ [.mutexAcquire .DigitalPort_MutexID, .getPackageType,
        .mutexRelease .DigitalPort_MutexID]) ∧
    (∃ s1, BSP_getSwitch3 b s = .ok (0, s1) ∧
      s1.log = s.log ++ [.mutexAcquire .DigitalPort_MutexID, .getPackageType,
        .mutexRelease .DigitalPort_MutexID]) := by
  obtain ⟨s2, h2, _, l2⟩ := BSP_getSwitch2_run_compact b s hfree hq
  obtain ⟨s3, h3, _, l3⟩ := BSP_getSwitch3_run_compact b s hfree hq
  exact ⟨⟨s2, h2, l2⟩, ⟨s3, h3, l3⟩⟩

/-- C5 on the sample board, QFN48 package, with every line held high. -/
theorem BSP_getSwitch2_getSwitch3_compact_witness :
    retval (BSP_getSwitch2 sampleBoard { idle with packageType := 0x0A, odr := fun _ _ => true }) =
      some 0 ∧
    retval (BSP_getSwitch3 sampleBoard { idle with packageType := 0x0A, odr := fun _ _ => true }) =
      some 0 := by
  obtain ⟨⟨s2, h2, _⟩, ⟨s3, h3, _⟩⟩ := BSP_getSwitch2_getSwitch3_compact sampleBoard
    { idle with packageType := 0x0A, odr := fun _ _ => true } rfl rfl
  rw [h2, h3]
  exact ⟨rfl, rfl⟩

/-- C10: the switches are active-low.  From a state in which the mutex is free,
`BSP_getSwitch1` returns -1 exactly when the line it reads is low and 0
otherwise, and it reads the dongle pin of switch1 on the QFN48 package and
the Nucleo pin of switch1 otherwise; on the other packages `BSP_getSwitch2`
and `BSP_getSwitch3` return -1 exactly when their own line is low.  No switch
function returns a value other than -1 or 0. -/
theorem BSP_getSwitch_active_low (b : Board) (s : Sys) (hfree : s.digitalPortHeld = false) :
    (s.packageType = b.LL_UTILS_PACKAGETYPE_QFN48 →
      ActiveLowRead (BSP_getSwitch1 b) s ⟨b.B1_DONGLE_GPIO_Port, b.B1_DONGLE_Pin⟩) ∧
    (s.packageType ≠ b.LL_UTILS_PACKAGETYPE_QFN48 →
      ActiveLowRead (BSP_getSwitch1 b) s ⟨b.B1_GPIO_Port, b.B1_Pin⟩ ∧
      ActiveLowRead (BSP_getSwitch2 b) s ⟨b.B2_GPIO_Port, b.B2_Pin⟩ ∧
      ActiveLowRead (BSP_getSwitch3 b) s ⟨b.B3_GPIO_Port, b.B3_Pin⟩) ∧
    (∀ get ∈ [BSP_getSwitch1 b, BSP_getSwitch2 b, BSP_getSwitch3 b],
      retval (get s) = some (-1) ∨ retval (get s) = some 0) := by
  have flag : ∀ (get : BSP Int) (e : PortPin_t), ActiveLowRead get s e →
      retval (get s) = some (-1) ∨ retval (get s) = some 0 := by
    rintro get e ⟨r, s1, h, hr, _⟩
    rw [h]
    rcases hr with rfl | rfl <;> simp [retval]
  have std := fun hq : s.packageType ≠ b.LL_UTILS_PACKAGETYPE_QFN48 =>
    And.intro (ActiveLowRead.of_run _ s _ (BSP_getSwitch1_run_standard b s hfree hq))
      (And.intro (ActiveLowRead.of_run _ s _ (BSP_getSwitch2_run_standard b s hfree hq))
        (ActiveLowRead.of_run _ s _ (BSP_getSwitch3_run_standard b s hfree hq)))
  have cmp := fun hq : s.packageType = b.LL_UTILS_PACKAGETYPE_QFN48 =>
    ActiveLowRead.of_run _ s _ (BSP_getSwitch1_run_compact b s hfree hq)
  refine ⟨cmp, std, ?_⟩
  intro get hget
  simp only [List.mem_cons, List.mem_singleton, List.not_mem_nil, or_false] at hget
  by_cases hq : s.packageType = b.LL_UTILS_PACKAGETYPE_QFN48
  · rcases hget with rfl | rfl | rfl
    · exact flag _ _ (cmp hq)
    · obtain ⟨s1, h, _⟩ := BSP_getSwitch2_run_compact b s hfree hq
      rw [h]; exact Or.inr rfl
    · obtain ⟨s1, h, _⟩ := BSP_getSwitch3_run_compact b s hfree hq
      rw [h]; exact Or.inr rfl
  · rcases hget with rfl | rfl | rfl
    · exact flag _ _ (std hq).1
    · exact flag _ _ (std hq).2.1
    · exact flag _ _ (std hq).2.2

/-- C10 on the sample board at rest: every line is low, so switch1 reads as
pressed on the Nucleo pin PC4. -/
theorem BSP_getSwitch_active_low_witness :
    idle.digitalPortHeld = false ∧ ActiveLowRead (BSP_getSwitch1 sampleBoard) idle ⟨2, 0x0010⟩ :=
  ⟨rfl, ((BSP_getSwitch_active_low sampleBoard idle rfl).2.1 (by decide)).1⟩

/-! ## The pin table and the digital port -/

theorem Board.disjointRows_elim (b : Board) (i j : Nat) (h : b.disjointRows i j)
    (ei ej : PortPin_t) (hi : (PortPin_a b)[i]? = some ei) (hj : (PortPin_a b)[j]? = some ej) :
    ei.port ≠ ej.port ∨ ∀ k, k < 16 → ¬(ei.pin.testBit k = true ∧ ej.pin.testBit k = true) := by
  simpa only [Board.disjointRows, hi, hj] using h

theorem Sys.high_of_odr (s : Sys) (e : PortPin_t) (v : Bool) (hout : s.isOutput e)
    (ho : ∀ k, k < 16 → e.pin.testBit k = true → s.odr e.port k = v) :
    s.high e.port e.pin = v := by
  obtain ⟨⟨k, hk, hb⟩, hdrv⟩ := hout
  unfold Sys.high Sys.idr
  cases v with
  | true =>
    rw [List.any_eq_true]
    exact ⟨k, List.mem_range.mpr hk, by simp [hb, hdrv k hk hb, ho k hk hb]⟩
  | false =>
    rw [Bool.eq_false_iff]
    intro h
    rw [List.any_eq_true] at h
    obtain ⟨j, hj, hjb⟩ := h
    have hj16 := List.mem_range.mp hj
    by_cases hbit : e.pin.testBit j = true
    · simp [hbit, hdrv j hj16 hbit, ho j hj16 hbit] at hjb
    · simp [hbit] at hjb

theorem land_one_ne_zero (w : Nat) :
    decide (Int.land (w : Int) 0x01 ≠ GPIO_PIN_RESET) = w.testBit 0 := by
  have h : Int.land (w : Int) 0x01 = ((w &&& 1 : Nat) : Int) := rfl
  rw [h, Nat.and_one_is_mod, Nat.testBit_zero, GPIO_PIN_RESET]
  rcases Nat.mod_two_eq_zero_or_one w with h0 | h1
  · simp [h0]
  · simp [h1]

theorem BSP_setDigitalPort_loop_bits (b : Board) :
    ∀ (n i w : Nat) (s : Sys), i + n ≤ 16 →
      (∀ j j2, i ≤ j → j < j2 → j2 < i + n → b.disjointRows j j2) →
      ∃ s1, BSP_setDigitalPort.loop b n i (w : Int) s = .ok ((), s1) ∧
        s1.driven = s.driven ∧ s1.digitalPortHeld = s.digitalPortHeld ∧
        (∀ p k, (∀ j e, i ≤ j → j < i + n → (PortPin_a b)[j]? = some e →
            ¬(p = e.port ∧ k < 16 ∧ e.pin.testBit k = true)) → s1.odr p k = s.odr p k) ∧
        (∀ j e, i ≤ j → j < i + n → (PortPin_a b)[j]? = some e →
          ∀ k, k < 16 → e.pin.testBit k = true → s1.odr e.port k = w.testBit (j - i)) := by
  intro n
  induction n with
  | zero =>
    intro i w s _ _
    exact ⟨s, rfl, rfl, rfl, fun _ _ _ => rfl, fun j e h1 h2 => by omega⟩
  | succ n ih =>
    intro i w s hi hdis
    obtain ⟨e, he⟩ : ∃ e, (PortPin_a b)[i]? = some e :=
      ⟨_, List.getElem?_eq_getElem (by rw [PortPin_a_length]; omega)⟩
    obtain ⟨s1, h1, hd, hh, hframe, hval⟩ := ih (i + 1) (w >>> 1)
      { s with
        odr := fun p k =>
          if p = e.port ∧ k < 16 ∧ e.pin.testBit k = true then
            decide (Int.land (w : Int) 0x01 ≠ GPIO_PIN_RESET)
          else s.odr p k,
        log := s.log ++ [.gpioWrite e.port e.pin
          (decide (Int.land (w : Int) 0x01 ≠ GPIO_PIN_RESET))] }
      (by omega) (fun j j2 h1 h2 h3 => hdis j j2 (by omega) h2 (by omega))
    refine ⟨s1, ?_, hd, hh, ?_, ?_⟩
    · rw [BSP_setDigitalPort.loop, BSP.bind_apply, index_ok _ i e he]
      simp only [BSP.bind_apply, HAL_GPIO_WritePin]
      exact h1
    · intro p k hnot
      rw [hframe p k (fun j e2 h1 h2 h3 => hnot j e2 (by omega) (by omega) h3)]
      have := hnot i e (le_refl i) (by omega) he
      simp only [this, if_false]
    · intro j e2 hij hj he2 k hk hbit
      rcases Nat.eq_or_lt_of_le hij with rfl | hlt
      · rw [he] at he2
        obtain rfl := Option.some.inj he2
        rw [hframe e.port k]
        · simp only [hk, hbit, and_self, if_true, Nat.sub_self]
          exact land_one_ne_zero w
        · intro j2 e3 h1 h2 h3 hcov
          rcases Board.disjointRows_elim b i j2 (hdis i j2 (le_refl i) (by omega) (by omega)) e e3
              he h3 with hp | hk2
          · exact hp hcov.1
          · exact hk2 k hk ⟨hbit, hcov.2.2⟩
      · rw [hval j e2 (by omega) (by omega) he2 k hk hbit, Nat.testBit_shiftRight]
        congr 1
        omega

theorem lor_shift_bit (a : Nat) (c : Bool) :
    Int.lor ((a : Int) * 2) (if c = true then GPIO_PIN_SET else GPIO_PIN_RESET) =
      ((a * 2 + (if c = true then 1 else 0) : Nat) : Int) := by
  have h1 : ((a : Int) * 2) = ((a * 2 : Nat) : Int) := by push_cast; rfl
  have h2 : (if c = true then GPIO_PIN_SET else GPIO_PIN_RESET) =
      (((if c = true then 1 else 0 : Nat)) : Int) := by
    cases c <;> simp [GPIO_PIN_SET, GPIO_PIN_RESET]
  have h3 : (a * 2) ||| (if c = true then 1 else 0) = a * 2 + (if c = true then 1 else 0) := by
    have := Nat.mul_add_lt_is_or (i := 1) (b := if c = true then 1 else 0)
      (by cases c <;> simp) a
    simpa [Nat.mul_comm] using this.symm
  rw [h1, h2, ← h3]
  rfl

theorem BSP_getDigitalPort_loop_value (b : Board) (w : Nat) :
    ∀ (i a : Nat) (s : Sys), i ≤ 16 →
      (∀ j e, j < i → (PortPin_a b)[j]? = some e → s.high e.port e.pin = w.testBit j) →
      ∃ s1, BSP_getDigitalPort.loop b i (a : Int) s =
        .ok (((a * 2 ^ i + w % 2 ^ i : Nat) : Int), s1) := by
  intro i
  induction i with
  | zero =>
    intro a s _ _
    exact ⟨s, by simp [BSP_getDigitalPort.loop, BSP.pure_apply, Nat.mod_one]⟩
  | succ i ih =>
    intro a s hi hbits
    obtain ⟨e, he⟩ : ∃ e, (PortPin_a b)[i]? = some e :=
      ⟨_, List.getElem?_eq_getElem (by rw [PortPin_a_length]; omega)⟩
    obtain ⟨s1, h1⟩ := ih (a * 2 + (if w.testBit i = true then 1 else 0))
      { s with log := s.log ++ [.gpioRead e.port e.pin] } (by omega)
      (fun j e2 hj he2 => hbits j e2 (by omega) he2)
    refine ⟨s1, ?_⟩
    rw [BSP_getDigitalPort.loop, BSP.bind_apply, index_ok _ i e he]
    simp only [BSP.bind_apply, HAL_GPIO_ReadPin, hbits i e (by omega) he]
    rw [lor_shift_bit, h1]
    have key : (a * 2 + (if w.testBit i = true then 1 else 0)) * 2 ^ i + w % 2 ^ i =
        a * 2 ^ (i + 1) + w % 2 ^ (i + 1) := by
      have hbit : (if w.testBit i = true then 1 else 0) = w / 2 ^ i % 2 := by
        rw [Nat.testBit_to_div_mod]
        rcases Nat.mod_two_eq_zero_or_one (w / 2 ^ i) with h0 | h1
        · simp [h0]
        · simp [h1]
      rw [hbit, Nat.mod_pow_succ, pow_succ]
      ring
    rw [key]

theorem BSP_setDigitalPort_eq (b : Board) (state : Int) (s s1 : Sys)
    (hfree : s.digitalPortHeld = false)
    (h : BSP_setDigitalPort.loop b 16 0 state { s with
      digitalPortHeld := true, log := s.log ++ [.mutexAcquire .DigitalPort_MutexID] } =
        .ok ((), s1)) :
    BSP_setDigitalPort b state s = .ok ((), ({ s1 with
      log := s1.log ++ [.mutexRelease .DigitalPort_MutexID], digitalPortHeld := false } : Sys)) := by
  simp only [BSP_setDigitalPort, BSP.bind_apply, osMutexAcquire, Sys.held, hfree, Sys.setHeld]
  simp only [Bool.false_eq_true, if_false]
  rw [h]
  rfl

theorem BSP_getDigitalPort_eq (b : Board) (r : Int) (s s1 : Sys)
    (hfree : s.digitalPortHeld = false)
    (h : BSP_getDigitalPort.loop b 16 0 { s with
      digitalPortHeld := true, log := s.log ++ [.mutexAcquire .DigitalPort_MutexID] } =
        .ok (r, s1)) :
    BSP_getDigitalPort b s = .ok (r, ({ s1 with
      log := s1.log ++ [.mutexRelease .DigitalPort_MutexID], digitalPortHeld := false } : Sys)) := by
  simp only [BSP_getDigitalPort, BSP.bind_apply, osMutexAcquire, Sys.held, hfree, Sys.setHeld]
  simp only [Bool.false_eq_true, if_false]
  rw [h]
  rfl

theorem BSP_setDigitalPort_bits (b : Board) (s : Sys) (v : Nat)
    (hfree : s.digitalPortHeld = false)
    (hout : ∀ i e, i < 16 → (PortPin_a b)[i]? = some e → s.isOutput e)
    (hdis : ∀ i j, i < j → j < 16 → b.disjointRows i j) :
    ∃ s1, BSP_setDigitalPort b v s = .ok ((), s1) ∧ s1.digitalPortHeld = false ∧
      ∀ j e, j < 16 → (PortPin_a b)[j]? = some e → s1.high e.port e.pin = v.testBit j := by
  obtain ⟨s1, h1, hd, hh, _, hval⟩ := BSP_setDigitalPort_loop_bits b 16 0 v
    { s with digitalPortHeld := true, log := s.log ++ [.mutexAcquire .DigitalPort_MutexID] }
    (by omega) (fun i j _ hij hj => hdis i j hij (by omega))
  refine ⟨_, BSP_setDigitalPort_eq b v s s1 hfree h1, rfl, ?_⟩
  intro j e hj he
  rw [Sys.high_frame]
  refine Sys.high_of_odr s1 e _ ?_ (fun k hk hb => hval j e (Nat.zero_le j) (by omega) he k hk hb)
  obtain ⟨hne, hdrv⟩ := hout j e hj he
  exact ⟨hne, fun k hk hb => by rw [hd]; exact hdrv k hk hb⟩

theorem BSP_getDigitalPort_value (b : Board) (s : Sys) (v : Nat) (hv : v < 65536)
    (hfree : s.digitalPortHeld = false)
    (hbits : ∀ j e, j < 16 → (PortPin_a b)[j]? = some e → s.high e.port e.pin = v.testBit j) :
    ∃ s1, BSP_getDigitalPort b s = .ok ((v : Int), s1) := by
  obtain ⟨s2, h2⟩ := BSP_getDigitalPort_loop_value b v 16 0
    { s with digitalPortHeld := true, log := s.log ++ [.mutexAcquire .DigitalPort_MutexID] }
    (le_refl 16) (fun j e hj he => by rw [Sys.high_frame]; exact hbits j e (by omega) he)
  have hval : (0 * 2 ^ 16 + v % 2 ^ 16 : Nat) = v := by omega
  rw [hval] at h2
  exact ⟨_, BSP_getDigitalPort_eq b v s s2 hfree h2⟩

/-- Read-back of the port on the table as it is: when the sixteen pins that
`PortPin_a` addresses are pairwise disjoint driven outputs, `BSP_getDigitalPort`
right after `BSP_setDigitalPort v` returns `v`, for every `v` below 2^16. -/
theorem BSP_getDigitalPort_after_setDigitalPort_on_distinct_outputs (b : Board) (s : Sys)
    (v : Nat) (hv : v < 65536) (hfree : s.digitalPortHeld = false)
    (hout : ∀ i e, i < 16 → (PortPin_a b)[i]? = some e → s.isOutput e)
    (hdis : ∀ i j, i < j → j < 16 → b.disjointRows i j) :
    retval ((BSP_setDigitalPort b v >>= fun _ => BSP_getDigitalPort b) s) = some (v : Int) := by
  obtain ⟨s1, h1, hf1, hbits⟩ := BSP_setDigitalPort_bits b s v hfree hout hdis
  obtain ⟨s2, h2⟩ := BSP_getDigitalPort_value b s1 v hv hf1 hbits
  rw [BSP.bind_apply, h1]
  simp only
  rw [h2]
  rfl

/-- The read-back on the sample board with every pin a driven output. -/
theorem BSP_getDigitalPort_after_setDigitalPort_on_sampleBoard :
    retval ((BSP_setDigitalPort sampleBoard (0xBEEF : Nat) >>= fun _ =>
      BSP_getDigitalPort sampleBoard) idle) = some 0xBEEF :=
  BSP_getDigitalPort_after_setDigitalPort_on_distinct_outputs sampleBoard idle 0xBEEF
    (by decide) rfl
    (fun i e _ he => ⟨by
        have h : ∀ i, i < 16 → ∀ x, (PortPin_a sampleBoard)[i]? = some x →
            ∃ k, k < 16 ∧ x.pin.testBit k = true := by
          intro i hi x hx
          have h16 : ∀ i, i < 16 → ∃ k, k < 16 ∧
              (((PortPin_a sampleBoard)[i]?.map (fun x : PortPin_t => x.pin)).getD 0).testBit k = true := by
            decide!
          obtain ⟨k, hk, hb⟩ := h16 i hi
          rw [hx] at hb
          exact ⟨k, hk, hb⟩
        have hi : i < 16 := by
          have := (List.getElem?_eq_some.mp he).1
          rwa [PortPin_a_length] at this
        exact h i hi e he, fun _ _ _ => rfl⟩)
    (fun i j hij hj =>
      (by decide! : ∀ j, j < 16 → ∀ i, i < j → sampleBoard.disjointRows i j) j hj i hij)

/-- Every row of the table but row 8 pairs the port of Dn with the pin of Dn. -/
theorem PortPin_a_rows (b : Board) (i : Nat) (hi : i < 16) (h8 : i ≠ 8) :
    (PortPin_a b)[i]? = some ⟨b.D_GPIO_Port i, b.D_Pin i⟩ := by
  have : i = 0 ∨ i = 1 ∨ i = 2 ∨ i = 3 ∨ i = 4 ∨ i = 5 ∨ i = 6 ∨ i = 7 ∨ i = 9 ∨ i = 10 ∨
      i = 11 ∨ i = 12 ∨ i = 13 ∨ i = 14 ∨ i = 15 := by omega
  rcases this with h | h | h | h | h | h | h | h | h | h | h | h | h | h | h <;> subst h <;> rfl

/-- Row 8 pairs the port of D8 with the pin of D9, on every board. -/
theorem PortPin_a_row8 (b : Board) :
    (PortPin_a b)[8]? = some ⟨b.D_GPIO_Port 8, b.D_Pin 9⟩ := rfl

/-- C3 fails at index 8: on the sample board the entry 8 of `PortPin_a` is the
port of D8 (port C) paired with the pin of D9 (pin 9), not with the pin of D8
(pin 12), and no entry of the table addresses D8. -/
theorem PortPin_a_entry8_pairs_D8_port_with_D9_pin :
    (PortPin_a sampleBoard)[8]? = some ⟨sampleBoard.D_GPIO_Port 8, sampleBoard.D_Pin 9⟩ ∧
    (PortPin_a sampleBoard)[8]? = some ⟨2, 0x0200⟩ ∧
    (PortPin_a sampleBoard)[8]? ≠ some ⟨sampleBoard.D_GPIO_Port 8, sampleBoard.D_Pin 8⟩ ∧
    (sampleBoard.D_GPIO_Port 8, sampleBoard.D_Pin 8) = (2, 0x1000) ∧
    ¬ ∃ e ∈ PortPin_a sampleBoard,
      e = ⟨sampleBoard.D_GPIO_Port 8, sampleBoard.D_Pin 8⟩ := by
  decide

/-- C1 fails.  On a board whose D8 and D9 share a port (`portBoard`), from the
state at rest in which every pin is a driven output, `BSP_getDigitalPort`
right after `BSP_setDigitalPort 0x0100` returns 0, and after
`BSP_setDigitalPort 0x0200` it returns 0x0300: rows 8 and 9 of the table
address the same pin.  On the sample board, with D0 .. D15 all driven outputs
and pin 9 of port C an input held low, the value 0x0100 reads back as 0:
bit 8 is written to and read from pin 9 of port C instead of D8. -/
theorem BSP_getDigitalPort_after_setDigitalPort_loses_bit8 :
    ((∀ p k, idle.driven p k = true) ∧ idle.digitalPortHeld = false ∧
      ¬ portBoard.disjointRows 8 9 ∧
      retval ((BSP_setDigitalPort portBoard 0x0100 >>= fun _ =>
        BSP_getDigitalPort portBoard) idle) = some 0 ∧
      retval ((BSP_setDigitalPort portBoard 0x0200 >>= fun _ =>
        BSP_getDigitalPort portBoard) idle) = some 0x0300) ∧
    ((∀ i, i < 16 → idlePC9Input.isOutput ⟨sampleBoard.D_GPIO_Port i, sampleBoard.D_Pin i⟩) ∧
      idlePC9Input.digitalPortHeld = false ∧
      retval ((BSP_setDigitalPort sampleBoard 0x0100 >>= fun _ =>
        BSP_getDigitalPort sampleBoard) idlePC9Input) = some 0) := by
  refine ⟨⟨fun _ _ => rfl, rfl, by decide!, by decide!, by decide!⟩,
    by decide!, rfl, by decide!⟩

/-! ## The analog conversion and the lock discipline -/

/-- C6: for every analog pin index `i` in 0..5, a call of `BSP_getAnalogPin i`
with the converter mutex free stores `AnalogPortPin_a[i]` in `sConfig.Channel`
and passes it to `HAL_ADC_ConfigChannel` before `HAL_ADC_Start_IT` (only the
error handler can run in between), and the sample it returns lies in
0..4095.  The call returns whenever the conversion ends; when it ends with a
completion interrupt, the channel is selected in the converter and the
sample of that interrupt is returned. -/
theorem BSP_getAnalogPin_configures_before_start (b : Board) (s : Sys) (i : Nat) (hi : i < 6)
    (hfree : s.adcHeld = false) :
    ∃ c, (AnalogPortPin_a b)[i]? = some c ∧
      (∀ r s1, BSP_getAnalogPin b i s = .ok (r, s1) →
        (0 ≤ r ∧ r ≤ 4095) ∧ s1.sConfig_Channel = c ∧
        ∃ mid rest, s1.log = s.log ++ [.mutexAcquire .Adc_MutexID, .adcConfigChannel c] ++ mid ++
            [.adcStart_IT] ++ rest ∧ (∀ x ∈ mid, x = .errorHandler)) ∧
      (s.conversionEnds → ∃ r s1, BSP_getAnalogPin b i s = .ok (r, s1)) ∧
      (∀ x rest, s.adcConfigStatus = .HAL_OK → s.adcStartStatus = .HAL_OK →
        s.adcSemaphore = 0 → s.adcIrq = .convCplt x :: rest →
        ∃ s1, BSP_getAnalogPin b i s = .ok (((x % 4096 : Nat) : Int), s1) ∧ s1.adcChannel = c ∧
          s1.log = s.log ++ [.mutexAcquire .Adc_MutexID, .adcConfigChannel c, .adcStart_IT,
            .semaphoreRelease, .semaphoreAcquire, .adcGetValue, .adcStop_IT,
            .mutexRelease .Adc_MutexID]) := by
  obtain ⟨c, hc⟩ : ∃ c, (AnalogPortPin_a b)[i]? = some c :=
    ⟨_, List.getElem?_eq_getElem (by rw [AnalogPortPin_a_length]; exact hi)⟩
  refine ⟨c, hc, ?_, BSP_getAnalogPin_returns b s i c hc hfree, ?_⟩
  · intro r s1 h
    obtain ⟨hr, _, hch, mid, rest, hl, hmid, _⟩ := BSP_getAnalogPin_run b s i c hc hfree r s1 h
    exact ⟨hr, hch, mid, rest ++ [.mutexRelease .Adc_MutexID], by rw [hl]; simp, hmid⟩
  · intro x rest hcs hss hsem hirq
    exact ⟨_, BSP_getAnalogPin_convCplt b s i c hc hfree hcs hss hsem x rest hirq, rfl, rfl⟩

/-- C6 on the sample board: pin A2 is channel 6, and the 12 bits of the sample
come back. -/
theorem BSP_getAnalogPin_configures_before_start_witness :
    (2 < 6 ∧ (converting (.convCplt 5000)).adcHeld = false) ∧
    ∃ c, (AnalogPortPin_a sampleBoard)[2]? = some c ∧ c = 6 ∧
      ∃ s1, BSP_getAnalogPin sampleBoard (2 : Nat) (converting (.convCplt 5000)) =
        .ok (((5000 % 4096 : Nat) : Int), s1) ∧ s1.adcChannel = c := by
  obtain ⟨c, hc, _, _, h⟩ :=
    BSP_getAnalogPin_configures_before_start sampleBoard (converting (.convCplt 5000)) 2
      (by decide) rfl
  obtain ⟨s1, h1, h2, _⟩ := h 5000 [] rfl rfl rfl rfl
  have hc6 : c = 6 := by
    have h6 : (AnalogPortPin_a sampleBoard)[2]? = some 6 := rfl
    rw [hc] at h6
    exact Option.some.inj h6
  exact ⟨⟨by decide, rfl⟩, c, hc, hc6, s1, h1, h2⟩

/-- C8 as stated fails on a platform whose `Error_Handler` does not return: the
error callback never raises the semaphore, and the call of `BSP_getAnalogPin`
that waits for it never returns. -/
theorem BSP_getAnalogPin_not_released_when_Error_Handler_halts :
    HAL_ADC_ErrorCallback haltedConversion = .error .halted ∧
    BSP_getAnalogPin sampleBoard (0 : Nat) haltedConversion = .error .halted ∧
    retval (BSP_getAnalogPin sampleBoard (0 : Nat) haltedConversion) = none :=
  ⟨rfl, BSP_getAnalogPin_halted sampleBoard haltedConversion 0 1 rfl rfl rfl rfl rfl [] rfl rfl,
    by rw [BSP_getAnalogPin_halted sampleBoard haltedConversion 0 1 rfl rfl rfl rfl rfl [] rfl rfl]
       rfl⟩

/-- C8, amended: when the conversion that `BSP_getAnalogPin` started ends through
the error callback and `Error_Handler` returns, `HAL_ADC_ErrorCallback` calls
the handler and then raises the semaphore to 1, and the suspended call of
`BSP_getAnalogPin` goes on: it returns, the converter mutex is free and the
semaphore is back at 0. -/
theorem BSP_getAnalogPin_released_by_error_callback (b : Board) (s : Sys) (i : Nat)
    (hi : i < 6) (hfree : s.adcHeld = false) (hcs : s.adcConfigStatus = .HAL_OK)
    (hss : s.adcStartStatus = .HAL_OK) (hsem : s.adcSemaphore = 0) (rest : List AdcIrq)
    (hirq : s.adcIrq = .error :: rest) (hret : s.errorHandlerReturns = true) :
    (∃ t, HAL_ADC_ErrorCallback s = .ok ((), t) ∧ t.adcSemaphore = 1 ∧
      t.log = s.log ++ [.errorHandler, .semaphoreRelease]) ∧
    ∃ c r s1, (AnalogPortPin_a b)[i]? = some c ∧ BSP_getAnalogPin b i s = .ok (r, s1) ∧
      s1.adcHeld = false ∧ s1.adcSemaphore = 0 ∧
      s1.log = s.log ++ [.mutexAcquire .Adc_MutexID, .adcConfigChannel c, .adcStart_IT,
        .errorHandler, .semaphoreRelease, .semaphoreAcquire, .adcGetValue, .adcStop_IT,
        .mutexRelease .Adc_MutexID] := by
  obtain ⟨c, hc⟩ : ∃ c, (AnalogPortPin_a b)[i]? = some c :=
    ⟨_, List.getElem?_eq_getElem (by rw [AnalogPortPin_a_length]; exact hi)⟩
  refine ⟨?_, c, _, _, hc, BSP_getAnalogPin_error b s i c hc hfree hcs hss hsem rest hirq hret,
    hfree, hsem, rfl⟩
  simp [HAL_ADC_ErrorCallback, BSP.bind_apply, Error_Handler, hret, osSemaphoreRelease, hsem]

/-- C8, amended, on the sample board: a conversion on A0 that ends with an error. -/
theorem BSP_getAnalogPin_released_by_error_callback_witness :
    ∃ r s1, BSP_getAnalogPin sampleBoard (0 : Nat) (converting .error) = .ok (r, s1) ∧
      s1.adcHeld = false ∧ s1.adcSemaphore = 0 := by
  obtain ⟨_, c, r, s1, _, h, hf, hs, _⟩ :=
    BSP_getAnalogPin_released_by_error_callback sampleBoard (converting .error) 0 (by decide)
      rfl rfl rfl rfl [] rfl rfl
  exact ⟨r, s1, h, hf, hs⟩

/-- C7: every digital-port function (LEDs, switches, port, pin, pin mode, PWM)
called with `DigitalPort_MutexID` free returns with that mutex free, and its
events are: the acquisition, then accesses that neither acquire nor release
the mutex, then the release.  `BSP_getAnalogPin` called with `Adc_MutexID` free
returns whenever the conversion ends, and every call that returns leaves
`Adc_MutexID` free with its events bracketed in the same way. -/
theorem lock_discipline (b : Board) :
    ((∀ state, LockedCall .DigitalPort_MutexID (BSP_setLED1 b state)) ∧
     LockedCall .DigitalPort_MutexID (BSP_getLED1 b) ∧
     (∀ state, LockedCall .DigitalPort_MutexID (BSP_setLED2 b state)) ∧
     LockedCall .DigitalPort_MutexID (BSP_getLED2 b) ∧
     (∀ state, LockedCall .DigitalPort_MutexID (BSP_setLED3 b state)) ∧
     LockedCall .DigitalPort_MutexID (BSP_getLED3 b)) ∧
    (LockedCall .DigitalPort_MutexID (BSP_getSwitch1 b) ∧
     LockedCall .DigitalPort_MutexID (BSP_getSwitch2 b) ∧
     LockedCall .DigitalPort_MutexID (BSP_getSwitch3 b)) ∧
    ((∀ state, LockedCall .DigitalPort_MutexID (BSP_setDigitalPort b state)) ∧
     LockedCall .DigitalPort_MutexID (BSP_getDigitalPort b) ∧
     (∀ p : Nat, p < 16 → ∀ state, LockedCall .DigitalPort_MutexID (BSP_setDigitalPin b p state)) ∧
     (∀ p : Nat, p < 16 → LockedCall .DigitalPort_MutexID (BSP_getDigitalPin b p)) ∧
     (∀ p mode : Nat, p < 16 → mode < 6 →
       LockedCall .DigitalPort_MutexID (BSP_setDigitalPinMode b p mode)) ∧
     (∀ p v, LockedCall .DigitalPort_MutexID (BSP_setPwmPin b p v))) ∧
    (∀ (p : Nat) (s : Sys), p < 6 → s.adcHeld = false →
      (s.conversionEnds → ∃ r s1, BSP_getAnalogPin b p s = .ok (r, s1)) ∧
      (∀ r s1, BSP_getAnalogPin b p s = .ok (r, s1) →
        s1.adcHeld = false ∧ ∃ tr, s1.log = s.log ++ tr ∧ bracketed .Adc_MutexID tr = true)) := by
  refine ⟨⟨BSP_setLED1_locked b, BSP_getLED1_locked b, ?_, ?_, ?_, ?_⟩,
    ⟨BSP_getSwitch1_locked b, BSP_getSwitch2_locked b, BSP_getSwitch3_locked b⟩,
    ⟨BSP_setDigitalPort_locked b, BSP_getDigitalPort_locked b, ?_, ?_,
      BSP_setDigitalPinMode_locked b, BSP_setPwmPin_locked b⟩, ?_⟩
  · exact fun state => LockedCall.of_writes _ fun s hs =>
      ⟨_, _, _, BSP_setLED2_run b s state hs, by simp⟩
  · exact LockedCall.of_reads _ fun s hs => ⟨_, _, _, _, BSP_getLED2_run b s hs, by simp⟩
  · exact fun state => LockedCall.of_writes _ fun s hs =>
      ⟨_, _, _, BSP_setLED3_run b s state hs, by simp⟩
  · exact LockedCall.of_reads _ fun s hs => ⟨_, _, _, _, BSP_getLED3_run b s hs, by simp⟩
  · intro p hp state
    obtain ⟨e, he⟩ : ∃ e, (PortPin_a b)[p]? = some e :=
      ⟨_, List.getElem?_eq_getElem (by rw [PortPin_a_length]; exact hp)⟩
    exact LockedCall.of_writes _ fun s hs =>
      ⟨_, _, _, BSP_setDigitalPin_run b s p state e hs he, by simp⟩
  · intro p hp
    obtain ⟨e, he⟩ : ∃ e, (PortPin_a b)[p]? = some e :=
      ⟨_, List.getElem?_eq_getElem (by rw [PortPin_a_length]; exact hp)⟩
    exact LockedCall.of_reads _ fun s hs =>
      ⟨_, _, _, _, BSP_getDigitalPin_run b s p e hs he, by simp⟩
  · intro p s hp hfree
    obtain ⟨c, hc⟩ : ∃ c, (AnalogPortPin_a b)[p]? = some c :=
      ⟨_, List.getElem?_eq_getElem (by rw [AnalogPortPin_a_length]; exact hp)⟩
    refine ⟨BSP_getAnalogPin_returns b s p c hc hfree, ?_⟩
    intro r s1 h
    obtain ⟨_, hf, _, mid, rest, hl, hmid, hrest⟩ := BSP_getAnalogPin_run b s p c hc hfree r s1 h
    refine ⟨hf, _, ?_, bracketed_of_access .Adc_MutexID
      ([.adcConfigChannel c] ++ mid ++ [.adcStart_IT] ++ rest) ?_⟩
    · rw [hl]; simp
    · intro x hx
      simp only [List.mem_append, List.mem_cons, List.mem_singleton, List.not_mem_nil,
        or_false] at hx
      rcases hx with ((hx | hx) | hx) | hx
      · subst hx; rfl
      · rw [hmid x hx]; rfl
      · subst hx; rfl
      · exact hrest x hx

/-- C7 on the sample board: `BSP_getDigitalPort` from the state at rest, and
`BSP_getAnalogPin` on a conversion that completes. -/
theorem lock_discipline_witness :
    (∃ r s1 tr, BSP_getDigitalPort sampleBoard idle = .ok (r, s1) ∧
      s1.held .DigitalPort_MutexID = false ∧ s1.log = idle.log ++ tr ∧
      bracketed .DigitalPort_MutexID tr = true) ∧
    ∃ r s1, BSP_getAnalogPin sampleBoard (0 : Nat) (converting (.convCplt 7)) = .ok (r, s1) :=
  ⟨(lock_discipline sampleBoard).2.2.1.2.1 idle rfl,
    ((lock_discipline sampleBoard).2.2.2 0 (converting (.convCplt 7)) (by decide) rfl).1
      (by decide)⟩

end Bsp
